import Mathlib

/-!
Verification of the DTX messaging core of libinstruments against its
natural-language specification.  The definitions below are shallow
embeddings of the C++ sources under src/ (dtx_message.cpp,
dtx_primitive_dict.cpp, dtx_channel.cpp, dtx_connection.cpp,
dtx_fragment.cpp, dtx_transport.cpp, nskeyedarchiver/*).  Machine
integers are modelled as Nat with explicit reductions modulo 2^w at the
points where the C++ code truncates; byte buffers are lists of Nat whose
elements are below 256 whenever they originate from real bytes.
-/

/-- Little-endian byte writing, mirroring WriteLE16 in dtx_message.cpp:
two bytes, low byte first. -/
def writeLE16 (v : Nat) : List Nat :=
  [v % 256, v / 2 ^ 8 % 256]

/-- Little-endian byte writing, mirroring WriteLE32 in dtx_message.cpp and
dtx_primitive_dict.cpp: four bytes, low byte first. -/
def writeLE32 (v : Nat) : List Nat :=
  [v % 256, v / 2 ^ 8 % 256, v / 2 ^ 16 % 256, v / 2 ^ 24 % 256]

/-- Big-endian byte writing, mirroring WriteBE32 in dtx_message.cpp. -/
def writeBE32 (v : Nat) : List Nat :=
  [v / 2 ^ 24 % 256, v / 2 ^ 16 % 256, v / 2 ^ 8 % 256, v % 256]

/-- Little-endian byte writing, mirroring WriteLE64 in
dtx_primitive_dict.cpp (and the inline auxiliary-header loop in
DTXMessage::Encode): eight bytes, low byte first. -/
def writeLE64 (v : Nat) : List Nat :=
  [v % 256, v / 2 ^ 8 % 256, v / 2 ^ 16 % 256, v / 2 ^ 24 % 256,
   v / 2 ^ 32 % 256, v / 2 ^ 40 % 256, v / 2 ^ 48 % 256, v / 2 ^ 56 % 256]

/-- Little-endian read of two bytes, mirroring ReadLE16 in
dtx_message.cpp (on uint8_t inputs the bitwise or of the C++ code equals
this sum). -/
def readLE16 (l : List Nat) : Nat :=
  l.getD 0 0 + 2 ^ 8 * l.getD 1 0

/-- Little-endian read of four bytes, mirroring ReadLE32 in
dtx_message.cpp and dtx_primitive_dict.cpp. -/
def readLE32 (l : List Nat) : Nat :=
  l.getD 0 0 + 2 ^ 8 * l.getD 1 0 + 2 ^ 16 * l.getD 2 0 + 2 ^ 24 * l.getD 3 0

/-- Big-endian read of four bytes, mirroring the explicit big-endian
reads in DTXMessage::ParseHeader and DTXMessage::Decode. -/
def readBE32 (l : List Nat) : Nat :=
  2 ^ 24 * l.getD 0 0 + 2 ^ 16 * l.getD 1 0 + 2 ^ 8 * l.getD 2 0 + l.getD 3 0

/-- Little-endian read of eight bytes, mirroring ReadLE64 in
dtx_primitive_dict.cpp. -/
def readLE64 (l : List Nat) : Nat :=
  l.getD 0 0 + 2 ^ 8 * l.getD 1 0 + 2 ^ 16 * l.getD 2 0 + 2 ^ 24 * l.getD 3 0 +
  2 ^ 32 * l.getD 4 0 + 2 ^ 40 * l.getD 5 0 + 2 ^ 48 * l.getD 6 0 + 2 ^ 56 * l.getD 7 0

@[simp] theorem length_writeLE16 (v : Nat) : (writeLE16 v).length = 2 := rfl

@[simp] theorem length_writeLE32 (v : Nat) : (writeLE32 v).length = 4 := rfl

@[simp] theorem length_writeBE32 (v : Nat) : (writeBE32 v).length = 4 := rfl

@[simp] theorem length_writeLE64 (v : Nat) : (writeLE64 v).length = 8 := rfl

@[simp] theorem readLE16_writeLE16 (v : Nat) (rest : List Nat) :
    readLE16 (writeLE16 v ++ rest) = v % 2 ^ 16 := by
  simp only [readLE16, writeLE16, List.cons_append, List.nil_append, List.getD_cons_zero,
    List.getD_cons_succ]
  omega

@[simp] theorem readLE32_writeLE32 (v : Nat) (rest : List Nat) :
    readLE32 (writeLE32 v ++ rest) = v % 2 ^ 32 := by
  simp only [readLE32, writeLE32, List.cons_append, List.nil_append, List.getD_cons_zero,
    List.getD_cons_succ]
  omega

@[simp] theorem readBE32_writeBE32 (v : Nat) (rest : List Nat) :
    readBE32 (writeBE32 v ++ rest) = v % 2 ^ 32 := by
  simp only [readBE32, writeBE32, List.cons_append, List.nil_append, List.getD_cons_zero,
    List.getD_cons_succ]
  omega

@[simp] theorem readLE64_writeLE64 (v : Nat) (rest : List Nat) :
    readLE64 (writeLE64 v ++ rest) = v % 2 ^ 64 := by
  simp only [readLE64, writeLE64, List.cons_append, List.nil_append, List.getD_cons_zero,
    List.getD_cons_succ]
  omega

@[simp] theorem drop_writeLE16_append (v : Nat) (rest : List Nat) :
    (writeLE16 v ++ rest).drop 2 = rest := rfl

@[simp] theorem drop_writeLE32_append (v : Nat) (rest : List Nat) :
    (writeLE32 v ++ rest).drop 4 = rest := rfl

@[simp] theorem drop_writeBE32_append (v : Nat) (rest : List Nat) :
    (writeBE32 v ++ rest).drop 4 = rest := rfl

@[simp] theorem drop_writeLE64_append (v : Nat) (rest : List Nat) :
    (writeLE64 v ++ rest).drop 8 = rest := rfl

/-- Interpretation of a 32-bit pattern as the signed int32 the C++ code
obtains with a static_cast. -/
def toInt32 (pattern : Nat) : Int :=
  if pattern % 2 ^ 32 < 2 ^ 31 then (pattern % 2 ^ 32 : Int)
  else (pattern % 2 ^ 32 : Int) - 2 ^ 32

/-- The 64-bit pattern of an Int, as produced by a static_cast to
uint64_t (or by storing the value in a 64-bit field). -/
def toUInt64pat (v : Int) : Nat :=
  (v % 2 ^ 64).toNat

/-- The 32-bit pattern of an Int, as produced by a static_cast to
uint32_t. -/
def toUInt32pat (v : Int) : Nat :=
  (v % 2 ^ 32).toNat

/-!
Property-list values.  The C++ code builds archives as libplist trees
(plist_t) and converts them to bytes with plist_to_bin / plist_from_bin.
libplist is an external library, so its binary property-list byte format
is not part of src/; the tree structure below mirrors the plist node
kinds the repository code creates and inspects (string, 64-bit integer
pattern, boolean, data, uid, array, dictionary).  Floating-point plist
nodes are not modelled: no verified claim touches them.
-/

/-- Property-list tree.  An integer node stores the 64-bit pattern, as
libplist does: plist_new_int and plist_new_uint both produce a PLIST_INT
node and plist_get_uint_val returns the raw pattern. -/
inductive Plist where
  | str (s : String)
  | int (pattern : Nat)
  | pbool (b : Bool)
  | pdata (bytes : List Nat)
  | uid (v : Nat)
  | array (items : List Plist)
  | dict (entries : List (String × Plist))

/-- Byte encoding of a string: character count then each code point as
four little-endian bytes.  Part of the modelled serialization. -/
def strBytes (s : String) : List Nat :=
  (s.data.map fun c => writeLE32 c.toNat).flatten

/-- Serialized form of a string: 8-byte length then the code points. -/
def serializeStr (s : String) : List Nat :=
  writeLE64 s.length ++ strBytes s

mutual

/-- Modelled from the spec: libplist's plist_to_bin, the binary
property-list writer, is external to src/.  The spec only requires that
the serialization be a binary format the matching reader inverts, so it
is modelled as a tag-length-value byte encoding of the plist tree. -/
def Plist.serialize : Plist → List Nat
  | .str s => 1 :: serializeStr s
  | .int v => 2 :: writeLE64 v
  | .pbool b => [3, if b then 1 else 0]
  | .pdata bs => 4 :: (writeLE64 bs.length ++ bs.map (· % 256))
  | .uid v => 5 :: writeLE64 v
  | .array items => 6 :: (writeLE64 items.length ++ Plist.serializeItems items)
  | .dict entries => 7 :: (writeLE64 entries.length ++ Plist.serializeEntries entries)

/-- Serialization of the item list of an array node. -/
def Plist.serializeItems : List Plist → List Nat
  | [] => []
  | p :: t => Plist.serialize p ++ Plist.serializeItems t

/-- Serialization of the entry list of a dictionary node. -/
def Plist.serializeEntries : List (String × Plist) → List Nat
  | [] => []
  | (k, v) :: t => serializeStr k ++ Plist.serialize v ++ Plist.serializeEntries t

end

/-- Parse a counted sequence of characters (four bytes each). -/
def parseChars : Nat → List Nat → Option (List Char × List Nat)
  | 0, bytes => some ([], bytes)
  | n + 1, bytes =>
    if 4 ≤ bytes.length then
      match parseChars n (bytes.drop 4) with
      | some (cs, rest) => some (Char.ofNat (readLE32 bytes) :: cs, rest)
      | none => none
    else none

/-- Parse a serialized string. -/
def parseStrBytes (bytes : List Nat) : Option (String × List Nat) :=
  if 8 ≤ bytes.length then
    match parseChars (readLE64 bytes) (bytes.drop 8) with
    | some (cs, rest) => some (String.mk cs, rest)
    | none => none
  else none

mutual

/-- Modelled from the spec: libplist's plist_from_bin, the binary
property-list reader, is external to src/; this is the reader matching
Plist.serialize.  The fuel argument bounds the nesting depth. -/
def parsePlist : Nat → List Nat → Option (Plist × List Nat)
  | 0, _ => none
  | _ + 1, [] => none
  | fuel + 1, tag :: rest =>
    if tag = 1 then
      (parseStrBytes rest).map fun sr => (Plist.str sr.1, sr.2)
    else if tag = 2 then
      if 8 ≤ rest.length then some (.int (readLE64 rest), rest.drop 8) else none
    else if tag = 3 then
      rest.head?.map fun b => (Plist.pbool (b ≠ 0), rest.tail)
    else if tag = 4 then
      if 8 ≤ rest.length then
        if readLE64 rest ≤ (rest.drop 8).length then
          some (.pdata ((rest.drop 8).take (readLE64 rest)), (rest.drop 8).drop (readLE64 rest))
        else none
      else none
    else if tag = 5 then
      if 8 ≤ rest.length then some (.uid (readLE64 rest), rest.drop 8) else none
    else if tag = 6 then
      if 8 ≤ rest.length then
        (parseItems fuel (readLE64 rest) (rest.drop 8)).map fun xr => (Plist.array xr.1, xr.2)
      else none
    else if tag = 7 then
      if 8 ≤ rest.length then
        (parseEntries fuel (readLE64 rest) (rest.drop 8)).map fun xr => (Plist.dict xr.1, xr.2)
      else none
    else none
termination_by fuel _ => (fuel, 0)

/-- Parse a counted sequence of plist values. -/
def parseItems : Nat → Nat → List Nat → Option (List Plist × List Nat)
  | _, 0, bytes => some ([], bytes)
  | fuel, n + 1, bytes =>
    (parsePlist fuel bytes).bind fun pr =>
      (parseItems fuel n pr.2).map fun tr => (pr.1 :: tr.1, tr.2)
termination_by fuel n _ => (fuel, n + 1)

/-- Parse a counted sequence of key-value pairs. -/
def parseEntries : Nat → Nat → List Nat → Option (List (String × Plist) × List Nat)
  | _, 0, bytes => some ([], bytes)
  | fuel, n + 1, bytes =>
    (parseStrBytes bytes).bind fun kr =>
      (parsePlist fuel kr.2).bind fun vr =>
        (parseEntries fuel n vr.2).map fun tr => ((kr.1, vr.1) :: tr.1, tr.2)
termination_by fuel n _ => (fuel, n + 1)

end

mutual

/-- Nesting depth of a plist tree, the fuel parsePlist needs. -/
def Plist.depth : Plist → Nat
  | .str _ => 1
  | .int _ => 1
  | .pbool _ => 1
  | .pdata _ => 1
  | .uid _ => 1
  | .array items => 1 + Plist.depthItems items
  | .dict entries => 1 + Plist.depthEntries entries

/-- Largest depth of the items of an array node. -/
def Plist.depthItems : List Plist → Nat
  | [] => 0
  | p :: t => max (Plist.depth p) (Plist.depthItems t)

/-- Largest depth of the values of a dictionary node. -/
def Plist.depthEntries : List (String × Plist) → Nat
  | [] => 0
  | (_, v) :: t => max (Plist.depth v) (Plist.depthEntries t)

end

/-!
NSObject (src/nskeyedarchiver/nsobject.h): a variant value type.  Class
metadata (m_className, m_classHierarchy) is empty on every value the
verified claims construct, so the embedding omits the two metadata
fields and the archiver below follows the empty-metadata paths of the
source, in which the class names are the inferred defaults.
Floating-point variants (Float32/Float64) are outside the embedding: no
claim touches them.
-/

/-- Variant value type mirroring NSObject.  An i32 holds the value of a
C++ int32_t, an i64 of an int64_t, a u64 of a uint64_t; dictionary
entries mirror std::map and are sorted by key with unique keys whenever
they are built by the embedded code. -/
inductive NSObj where
  | null
  | nsbool (b : Bool)
  | i32 (v : Int)
  | i64 (v : Int)
  | u64 (v : Nat)
  | str (s : String)
  | data (bytes : List Nat)
  | array (items : List NSObj)
  | set (items : List NSObj)
  | dict (entries : List (String × NSObj))

/-- Append an object to the archive object table and return its UID,
mirroring ArchiverContext::AddObject.  The table already holds the
sentinel at index 0, so the new index is the current length. -/
def addObject (t : List Plist) (p : Plist) : Nat × List Plist :=
  (t.length, t ++ [p])

/-- Append a class descriptor, mirroring ArchiverContext::AddClass. -/
def addClass (t : List Plist) (className : String) (hierarchy : List String) :
    Nat × List Plist :=
  addObject t (.dict [("$classname", .str className),
    ("$classes", .array (hierarchy.map .str))])

mutual

/-- Encode a value into the object table and return its UID, mirroring
ArchiverContext::Encode.  With empty class metadata the container cases
use the inferred default class names, as the source does. -/
def ctxEncode : NSObj → List Plist → Nat × List Plist
  | .null, t => (0, t)
  | .nsbool b, t => addObject t (.pbool b)
  | .i32 v, t => addObject t (.int (toUInt64pat v))
  | .i64 v, t => addObject t (.int (toUInt64pat v))
  | .u64 v, t => addObject t (.int (v % 2 ^ 64))
  | .str s, t => addObject t (.str s)
  | .data bs, t => addObject t (.pdata bs)
  | .array items, t =>
    let r1 := ctxEncodeList items t
    let r2 := addClass r1.2 "NSArray" ["NSArray", "NSObject"]
    addObject r2.2 (.dict [("NS.objects", .array (r1.1.map .uid)), ("$class", .uid r2.1)])
  | .set items, t =>
    let r1 := ctxEncodeList items t
    let r2 := addClass r1.2 "NSSet" ["NSSet", "NSObject"]
    addObject r2.2 (.dict [("NS.objects", .array (r1.1.map .uid)), ("$class", .uid r2.1)])
  | .dict entries, t =>
    let r1 := ctxEncodePairs entries t
    let r2 := addClass r1.2.2 "NSDictionary" ["NSDictionary", "NSObject"]
    addObject r2.2 (.dict [("NS.keys", .array (r1.1.map .uid)),
      ("NS.objects", .array (r1.2.1.map .uid)), ("$class", .uid r2.1)])

/-- Encode the items of an array or set, collecting their UIDs. -/
def ctxEncodeList : List NSObj → List Plist → List Nat × List Plist
  | [], t => ([], t)
  | x :: xs, t =>
    let r1 := ctxEncode x t
    let r2 := ctxEncodeList xs r1.2
    (r1.1 :: r2.1, r2.2)

/-- Encode the pairs of a dictionary (key string then value, per entry),
collecting key UIDs and value UIDs, mirroring the loop in
ArchiverContext::EncodeDict. -/
def ctxEncodePairs : List (String × NSObj) → List Plist → List Nat × List Nat × List Plist
  | [], t => ([], [], t)
  | (k, v) :: xs, t =>
    let rk := addObject t (.str k)
    let rv := ctxEncode v rk.2
    let rt := ctxEncodePairs xs rv.2
    (rk.1 :: rt.1, rv.1 :: rt.2.1, rt.2.2)

end

/-- Byte form of an archive, mirroring NSKeyedArchiver::Archive: the
object table is built from the sentinel, and the archive dictionary
(archiver name, version 100000, top pointing at the root UID, objects)
is serialized to the modelled binary property list. -/
def NSKeyedArchiver.archive (root : NSObj) : List Nat :=
  let r := ctxEncode root [.str "$null"]
  Plist.serialize (.dict [("$archiver", .str "NSKeyedArchiver"),
    ("$version", .int 100000),
    ("$top", .dict [("root", .uid r.1)]),
    ("$objects", .array r.2)])

/-- Lookup in a plist dictionary node, mirroring plist_dict_get_item
(null on a non-dictionary node or a missing key). -/
def plistDictGet (p : Plist) (key : String) : Option Plist :=
  match p with
  | .dict entries => entries.lookup key
  | _ => none

/-- Index into a plist array node, mirroring plist_array_get_item (null
on a non-array node or an out-of-range index). -/
def plistArrayGet (p : Plist) (i : Nat) : Option Plist :=
  match p with
  | .array xs => xs[i]?
  | _ => none

/-- Resolve a UID reference in the object table, mirroring ResolveUID in
nskeyedunarchiver.cpp: null unless the node is a UID. -/
def resolveUID (objects : Plist) (node : Plist) : Option Plist :=
  match node with
  | .uid u => plistArrayGet objects u
  | _ => none

/-- Class name of a keyed-archiver container, mirroring GetClassName in
nskeyedunarchiver.cpp; empty when anything along the path is missing. -/
def getClassName (objects : Plist) (containerDict : Plist) : String :=
  match plistDictGet containerDict "$class" with
  | none => ""
  | some classUid =>
    match resolveUID objects classUid with
    | none => ""
    | some classDict =>
      match plistDictGet classDict "$classname" with
      | some (.str name) => name
      | _ => ""

/-- Ordered insertion into a string-keyed map, mirroring assignment into
a std::map with std::string keys: the entry list stays sorted by key and
an existing key is overwritten. -/
def mapInsertStr {α : Type} (k : String) (v : α) :
    List (String × α) → List (String × α)
  | [] => [(k, v)]
  | (k2, v2) :: t =>
    if k < k2 then (k, v) :: (k2, v2) :: t
    else if k = k2 then (k, v) :: t
    else (k2, v2) :: mapInsertStr k v t

/-- Abbreviated model of NSObject::ToJson, used by the unarchiver only
to coin a map key from a non-string dictionary key; no archive the
embedded encoder produces contains one, and no verified claim reaches
this function.  The scalar branches match the source printer; the
container branches are abbreviated. -/
def nsToJsonKey : NSObj → String
  | .null => "null"
  | .nsbool b => if b then "true" else "false"
  | .i32 v => toString v
  | .i64 v => toString v
  | .u64 v => toString v
  | .str s => "\"" ++ s ++ "\""
  | .data bs => "\"<data:" ++ toString bs.length ++ " bytes>\""
  | .array _ => "[...]"
  | .set _ => "[...]"
  | .dict _ => "..."

/-- Decode NSData/NSMutableData, mirroring DecodeNSData in
nskeyedunarchiver.cpp (no recursion: the data is inline or one UID
away). -/
def decodeNSData (objects : Plist) (node : Plist) : NSObj :=
  match plistDictGet node "NS.data" with
  | none => .data []
  | some n =>
    match n with
    | .uid u =>
      match plistArrayGet objects u with
      | some (.pdata bs) => .data bs
      | _ => .data []
    | .pdata bs => .data bs
    | _ => .data []

/-- Decode NSString/NSMutableString, mirroring DecodeNSString in
nskeyedunarchiver.cpp. -/
def decodeNSStringNode (objects : Plist) (node : Plist) : NSObj :=
  match plistDictGet node "NS.string" with
  | none => .str ""
  | some n =>
    match n with
    | .uid u =>
      match plistArrayGet objects u with
      | some (.str s) => .str s
      | _ => .str ""
    | .str s => .str s
    | _ => .str ""

mutual

/-- Decode a plist node that may be a UID reference, mirroring
DecodeValue in nskeyedunarchiver.cpp (a null node decodes to null).
The fuel argument only bounds the recursion depth of the embedding;
every caller supplies more fuel than any tree parsed from its buffer
can consume. -/
def decodeValue : Nat → Plist → Option Plist → NSObj
  | 0, _, _ => .null
  | _ + 1, _, none => .null
  | fuel + 1, objects, some node =>
    match node with
    | .uid u => decodeObject fuel objects (plistArrayGet objects u)
    | _ => decodeObject fuel objects (some node)

/-- Decode an object-table node, mirroring DecodeObject in
nskeyedunarchiver.cpp: strings are checked against the null sentinel,
keyed-archiver containers dispatch on their class name, and everything
else decodes as a plain plist value. -/
def decodeObject : Nat → Plist → Option Plist → NSObj
  | 0, _, _ => .null
  | _ + 1, _, none => .null
  | fuel + 1, objects, some node =>
    match node with
    | .str s => if s = "$null" then .null else .str s
    | .dict entries =>
      if getClassName objects node = "" then decodePrimitive fuel node
      else decodeByClass fuel objects node entries (getClassName objects node)
    | _ => decodePrimitive fuel node

/-- The class-name dispatch of DecodeObject in nskeyedunarchiver.cpp. -/
def decodeByClass : Nat → Plist → Plist → List (String × Plist) → String → NSObj
  | 0, _, _, _, _ => .null
  | fuel + 1, objects, node, entries, className =>
    if className = "NSArray" ∨ className = "NSMutableArray" then
      decodeNSArrayLike fuel objects node false
    else if className = "NSSet" ∨ className = "NSMutableSet" then
      decodeNSArrayLike fuel objects node true
    else if className = "NSDictionary" ∨ className = "NSMutableDictionary" then
      decodeNSDictionary fuel objects node
    else if className = "NSData" ∨ className = "NSMutableData" then
      decodeNSData objects node
    else if className = "NSString" ∨ className = "NSMutableString" then
      decodeNSStringNode objects node
    else if className = "NSValue" ∨ className = "NSNumber" then
      decodeNSNumber fuel objects node
    else if className = "NSDate" then
      decodeNSDate fuel objects node
    else if className = "NSUUID" then
      decodeNSUUID fuel objects node
    else if className = "NSError" ∨ className = "NSException" then
      decodeNSError fuel objects node className
    else if className = "NSURL" then
      decodeNSURL fuel objects node
    else if className = "DTTapMessage" ∨ className = "DTSysmonTapMessage" then
      decodeDTTap fuel objects node
    else if className = "XCTCapabilities" ∧
        (plistDictGet node "capabilities-dictionary").isSome then
      decodeXCTCaps fuel objects node
    else
      decodeUnknownClass fuel objects entries className

/-- Decode NSArray/NSMutableArray (asSet false) or NSSet/NSMutableSet
(asSet true), mirroring DecodeNSArray and DecodeNSSet. -/
def decodeNSArrayLike : Nat → Plist → Plist → Bool → NSObj
  | 0, _, _, asSet => if asSet then .set [] else .array []
  | fuel + 1, objects, node, asSet =>
    match plistDictGet node "NS.objects" with
    | some (.array xs) =>
      if asSet then .set (decodeValueList fuel objects xs)
      else .array (decodeValueList fuel objects xs)
    | _ => if asSet then .set [] else .array []

/-- Decode NSDictionary/NSMutableDictionary, mirroring
DecodeNSDictionary: parallel key and object arrays, keys coerced to
strings, inserted into a std::map. -/
def decodeNSDictionary : Nat → Plist → Plist → NSObj
  | 0, _, _ => .dict []
  | fuel + 1, objects, node =>
    match plistDictGet node "NS.keys", plistDictGet node "NS.objects" with
    | some keys, some vals =>
      let ks := match keys with | .array xs => xs | _ => []
      let vs := match vals with | .array xs => xs | _ => []
      let count := min ks.length vs.length
      .dict (decodeDictPairs fuel objects (ks.take count) (vs.take count) [])
    | _, _ => .dict []

/-- Decode NSValue/NSNumber, mirroring the NS.intval / NS.dblval lookups
of the source. -/
def decodeNSNumber : Nat → Plist → Plist → NSObj
  | 0, _, _ => .null
  | fuel + 1, objects, node =>
    match plistDictGet node "NS.intval" with
    | some intVal => decodeValue fuel objects (some intVal)
    | none =>
      match plistDictGet node "NS.dblval" with
      | some dblVal => decodeValue fuel objects (some dblVal)
      | none => .null

/-- Decode NSDate from its NS.time slot.  The source's fallback value is
the float 0.0, which is outside the embedding and modelled as null. -/
def decodeNSDate : Nat → Plist → Plist → NSObj
  | 0, _, _ => .null
  | fuel + 1, objects, node =>
    match plistDictGet node "NS.time" with
    | some timeVal => decodeValue fuel objects (some timeVal)
    | none => .null

/-- Decode NSUUID from its NS.uuidbytes slot. -/
def decodeNSUUID : Nat → Plist → Plist → NSObj
  | 0, _, _ => .data []
  | fuel + 1, objects, node =>
    match plistDictGet node "NS.uuidbytes" with
    | some uuidBytes => decodeValue fuel objects (some uuidBytes)
    | none => .data []

/-- Decode NSError/NSException into a map with the class, domain, code
and userInfo slots, mirroring the source. -/
def decodeNSError : Nat → Plist → Plist → String → NSObj
  | 0, _, _, _ => .null
  | fuel + 1, objects, node, className =>
    let r0 : List (String × NSObj) := mapInsertStr "$class" (.str className) []
    let r1 := match plistDictGet node "NSDomain" with
      | some domain => mapInsertStr "domain" (decodeValue fuel objects (some domain)) r0
      | none => r0
    let r2 := match plistDictGet node "NSCode" with
      | some code => mapInsertStr "code" (decodeValue fuel objects (some code)) r1
      | none => r1
    let r3 := match plistDictGet node "NSUserInfo" with
      | some userInfo => mapInsertStr "userInfo" (decodeValue fuel objects (some userInfo)) r2
      | none => r2
    .dict r3

/-- Decode NSURL from its NS.relative slot. -/
def decodeNSURL : Nat → Plist → Plist → NSObj
  | 0, _, _ => .str ""
  | fuel + 1, objects, node =>
    match plistDictGet node "NS.relative" with
    | some relative => decodeValue fuel objects (some relative)
    | none => .str ""

/-- Decode DTTapMessage/DTSysmonTapMessage: the wrapped DTTapMessagePlist
bytes are parsed as an inner property list and decoded as a plain plist
value, mirroring the source. -/
def decodeDTTap : Nat → Plist → Plist → NSObj
  | 0, _, _ => .null
  | fuel + 1, objects, node =>
    match plistDictGet node "DTTapMessagePlist" with
    | some plistBytes =>
      match decodeValue fuel objects (some plistBytes) with
      | .data bs =>
        if bs ≠ [] then
          match parsePlist (bs.length + 1) bs with
          | some (inner, _) => decodePrimitive fuel inner
          | none => .null
        else .null
      | _ => .null
    | none => .null

/-- Decode XCTCapabilities from its capabilities dictionary when it has
one (otherwise the source falls through to the unknown-class path). -/
def decodeXCTCaps : Nat → Plist → Plist → NSObj
  | 0, _, _ => .null
  | fuel + 1, objects, node =>
    match plistDictGet node "capabilities-dictionary" with
    | some capsDict => decodeValue fuel objects (some capsDict)
    | none => .null

/-- Decode an unknown-class container as a map carrying the class name
and the remaining keys, mirroring the fallback at the end of
DecodeObject. -/
def decodeUnknownClass : Nat → Plist → List (String × Plist) → String → NSObj
  | 0, _, _, _ => .null
  | fuel + 1, objects, entries, className =>
    .dict (decodeUnknownEntries fuel objects entries
      (mapInsertStr "$class" (.str className) []))

/-- Decode parallel key and value node lists into a sorted map. -/
def decodeDictPairs : Nat → Plist → List Plist → List Plist →
    List (String × NSObj) → List (String × NSObj)
  | 0, _, _, _, acc => acc
  | _ + 1, _, [], _, acc => acc
  | _ + 1, _, _, [], acc => acc
  | fuel + 1, objects, kn :: ks, vn :: vs, acc =>
    let key := decodeValue fuel objects (some kn)
    let val := decodeValue fuel objects (some vn)
    let keyStr := match key with | .str s => s | other => nsToJsonKey other
    decodeDictPairs fuel objects ks vs (mapInsertStr keyStr val acc)

/-- Decode the item nodes of an array or set container. -/
def decodeValueList : Nat → Plist → List Plist → List NSObj
  | 0, _, _ => []
  | _ + 1, _, [] => []
  | fuel + 1, objects, n :: ns =>
    decodeValue fuel objects (some n) :: decodeValueList fuel objects ns

/-- Decode the remaining keys of an unknown-class container into a
sorted map, skipping the class slot. -/
def decodeUnknownEntries : Nat → Plist → List (String × Plist) →
    List (String × NSObj) → List (String × NSObj)
  | 0, _, _, acc => acc
  | _ + 1, _, [], acc => acc
  | fuel + 1, objects, (k, v) :: t, acc =>
    if k = "$class" then decodeUnknownEntries fuel objects t acc
    else decodeUnknownEntries fuel objects t
      (mapInsertStr k (decodeValue fuel objects (some v)) acc)

/-- Decode a raw plist node that is not a keyed-archiver container,
mirroring DecodePrimitive.  The PLIST_REAL branch is outside the
embedding (no floating point in any claim); the PLIST_UID case falls to
the default branch of the source switch and decodes to null. -/
def decodePrimitive : Nat → Plist → NSObj
  | 0, _ => .null
  | fuel + 1, node =>
    match node with
    | .pbool b => .nsbool b
    | .int pat => if pat ≥ 2 ^ 63 then .u64 pat else .i64 pat
    | .str s => .str s
    | .pdata bs => .data bs
    | .array xs => .array (decodePrimList fuel xs)
    | .dict entries => .dict (decodePrimEntries fuel entries [])
    | .uid _ => .null

/-- Decode the items of a plain plist array. -/
def decodePrimList : Nat → List Plist → List NSObj
  | 0, _ => []
  | _ + 1, [] => []
  | fuel + 1, n :: ns => decodePrimitive fuel n :: decodePrimList fuel ns

/-- Decode the entries of a plain plist dictionary into a sorted map. -/
def decodePrimEntries : Nat → List (String × Plist) →
    List (String × NSObj) → List (String × NSObj)
  | 0, _, acc => acc
  | _ + 1, [], acc => acc
  | fuel + 1, (k, v) :: t, acc =>
    decodePrimEntries fuel t (mapInsertStr k (decodePrimitive fuel v) acc)

end

/-- Decode an archive byte buffer, mirroring NSKeyedUnarchiver::Unarchive:
parse the property list, then either decode a plain plist or follow the
keyed-archiver structure from the top root UID.  The source's XML
fallback is outside the modelled serialization, and the recursion fuel
is ample for any tree parsed from the buffer. -/
def NSKeyedUnarchiver.unarchive (data : List Nat) : NSObj :=
  if data.length = 0 then .null
  else
    match parsePlist (data.length + 1) data with
    | none => .null
    | some (root, _) =>
      match plistDictGet root "$archiver" with
      | none => decodePrimitive (data.length + 8) root
      | some _ =>
        match plistDictGet root "$objects", plistDictGet root "$top" with
        | some objects, some top =>
          let rootUid := match plistDictGet top "root" with
            | some u => some u
            | none => plistDictGet top "$0"
          match rootUid with
          | some u => decodeValue (data.length + 8) objects (some u)
          | none =>
            let entries : List (String × Plist) :=
              match top with | .dict entries => entries | _ => []
            let items := entries.map
              (fun kv => decodeValue (data.length + 8) objects (some kv.2))
            match items with
            | [single] => single
            | _ => .array items
        | _, _ => .null

/-!
DTX primitive argument list (src/src/dtx/dtx_primitive_dict.cpp).
-/

/-- Encode one auxiliary item, mirroring DTXPrimitiveDict::EncodeEntry:
the 0x0A empty-dictionary marker, a type tag, and the body.  Int32 is
written as a u32 pattern under tag 0x03, Int64 and UInt64 as a u64
pattern under tag 0x06, null with no body under tag 0x0A, and every
other value as an NSKeyedArchiver archive under tag 0x02. -/
def DTXPrimitiveDict.encodeEntry (item : NSObj) : List Nat :=
  writeLE32 0x0A ++
  match item with
  | .null => writeLE32 0x0A
  | .i32 v => writeLE32 0x03 ++ writeLE32 (toUInt32pat v)
  | .u64 v => writeLE32 0x06 ++ writeLE64 v
  | .i64 v => writeLE32 0x06 ++ writeLE64 (toUInt64pat v)
  | other =>
    let archived := NSKeyedArchiver.archive other
    writeLE32 0x02 ++ writeLE32 archived.length ++ archived

/-- Encode an auxiliary item list, mirroring DTXPrimitiveDict::Encode:
the concatenation of the entries (the 16-byte auxiliary sub-header is
added at the message layer). -/
def DTXPrimitiveDict.encode (items : List NSObj) : List Nat :=
  (items.map DTXPrimitiveDict.encodeEntry).flatten

/-- Decode auxiliary entries, mirroring the loop of
DTXPrimitiveDict::DecodeEntries on the suffix of the buffer that has not
been consumed: each iteration reads the 4-byte marker and the 4-byte
type tag, then the typed body; a truncated body stops decoding with the
items collected so far, and an unknown tag appends one null and stops. -/
def DTXPrimitiveDict.decodeEntries (data : List Nat) : List NSObj :=
  if _h8 : 8 ≤ data.length then
    let ty := readLE32 (data.drop 4)
    let rest := data.drop 8
    if ty = 0x0A then
      NSObj.null :: DTXPrimitiveDict.decodeEntries rest
    else if ty = 0x03 then
      if 4 ≤ rest.length then
        NSObj.i32 (toInt32 (readLE32 rest)) :: DTXPrimitiveDict.decodeEntries (rest.drop 4)
      else []
    else if ty = 0x06 then
      if 8 ≤ rest.length then
        NSObj.u64 (readLE64 rest) :: DTXPrimitiveDict.decodeEntries (rest.drop 8)
      else []
    else if ty = 0x01 ∨ ty = 0x02 then
      if 4 ≤ rest.length then
        let entryLen := readLE32 rest
        let rest2 := rest.drop 4
        if entryLen ≤ rest2.length then
          (if 0 < entryLen then NSKeyedUnarchiver.unarchive (rest2.take entryLen)
           else NSObj.null) :: DTXPrimitiveDict.decodeEntries (rest2.drop entryLen)
        else []
      else []
    else [NSObj.null]
  else []
termination_by data.length
decreasing_by
  all_goals simp only [List.length_drop]; omega

/-- Decode an auxiliary byte buffer, mirroring DTXPrimitiveDict::Decode
(the data already excludes the 16-byte auxiliary sub-header). -/
def DTXPrimitiveDict.decode (data : List Nat) : List NSObj :=
  if data.length = 0 then [] else DTXPrimitiveDict.decodeEntries data

/-!
Round trip of the modelled property-list serialization, needed to relate
DTXPrimitiveDict.decode to DTXPrimitiveDict.encode on archived items.
-/

mutual

/-- Well-formedness of a plist tree for serialization: counted fields fit
in their 64-bit length slots and data bytes are real bytes. -/
def Plist.good : Plist → Bool
  | .str s => decide (s.length < 2 ^ 64)
  | .int v => decide (v < 2 ^ 64)
  | .pbool _ => true
  | .pdata bs => decide (bs.length < 2 ^ 64) && bs.all (· < 256)
  | .uid v => decide (v < 2 ^ 64)
  | .array items => decide (items.length < 2 ^ 64) && Plist.goodItems items
  | .dict entries => decide (entries.length < 2 ^ 64) && Plist.goodEntries entries

/-- Well-formedness of the items of an array node. -/
def Plist.goodItems : List Plist → Bool
  | [] => true
  | p :: t => Plist.good p && Plist.goodItems t

/-- Well-formedness of the entries of a dictionary node. -/
def Plist.goodEntries : List (String × Plist) → Bool
  | [] => true
  | (k, v) :: t => decide (k.length < 2 ^ 64) && Plist.good v && Plist.goodEntries t

end

/-- Every plist tree has positive depth. -/
theorem Plist.one_le_depth (p : Plist) : 1 ≤ p.depth := by
  cases p <;> simp [Plist.depth]

/-- A list of real bytes is unchanged by the byte truncation the
serializer applies. -/
theorem map_mod256_of_all_lt (bs : List Nat) (h : bs.all (· < 256)) :
    bs.map (· % 256) = bs := by
  induction bs with
  | nil => rfl
  | cons b t ih =>
    simp only [List.all_cons, Bool.and_eq_true, decide_eq_true_eq] at h
    simp [Nat.mod_eq_of_lt h.1, ih h.2]

/-- Character reads invert character writes. -/
theorem parseChars_strBytes : ∀ (cs : List Char) (rest : List Nat),
    parseChars cs.length ((cs.map fun c => writeLE32 c.toNat).flatten ++ rest) = some (cs, rest)
  | [], rest => by simp [parseChars]
  | c :: t, rest => by
    have hc : c.toNat < 4294967296 := by
      have := c.val.toNat_lt_size
      simpa [Char.toNat, UInt32.size] using this
    have ht := parseChars_strBytes t rest
    simp only [List.map_cons, List.flatten_cons, List.append_assoc, List.length_cons]
    rw [parseChars]
    simp only [List.length_append, length_writeLE32, readLE32_writeLE32, drop_writeLE32_append]
    rw [if_pos (by omega), ht]
    simp only [Nat.mod_eq_of_lt (show c.toNat < 2 ^ 32 from hc), Char.ofNat_toNat]

/-- String reads invert string writes when the length fits its slot. -/
theorem parseStrBytes_serializeStr (s : String) (h : s.length < 2 ^ 64) (rest : List Nat) :
    parseStrBytes (serializeStr s ++ rest) = some (s, rest) := by
  unfold parseStrBytes
  have h8 : 8 ≤ (serializeStr s ++ rest).length := by simp [serializeStr]
  rw [if_pos h8]
  have hread : readLE64 (serializeStr s ++ rest) = s.length := by
    rw [serializeStr, List.append_assoc, readLE64_writeLE64]
    exact Nat.mod_eq_of_lt h
  have hdrop : (serializeStr s ++ rest).drop 8 = strBytes s ++ rest := by
    rw [serializeStr, List.append_assoc, drop_writeLE64_append]
  rw [hread, hdrop]
  have hc := parseChars_strBytes s.data rest
  have hs : s.length = s.data.length := rfl
  rw [hs, strBytes, hc]

/-- Item-list reads invert item-list writes, given the round trip for
each item at the same fuel. -/
theorem parseItems_serializeItems (f : Nat)
    (IH : ∀ p rest, Plist.depth p ≤ f → Plist.good p →
      parsePlist f (Plist.serialize p ++ rest) = some (p, rest)) :
    ∀ (items : List Plist) (rest : List Nat), Plist.depthItems items ≤ f →
      Plist.goodItems items →
      parseItems f items.length (Plist.serializeItems items ++ rest) = some (items, rest)
  | [], rest, _, _ => by simp [Plist.serializeItems, parseItems]
  | p :: t, rest, hd, hg => by
    simp only [Plist.depthItems, Nat.max_le] at hd
    simp only [Plist.goodItems, Bool.and_eq_true] at hg
    have ht := parseItems_serializeItems f IH t rest hd.2 hg.2
    simp only [Plist.serializeItems, List.append_assoc, List.length_cons]
    rw [parseItems]
    simp [IH p _ hd.1 hg.1, ht]

/-- Entry-list reads invert entry-list writes, given the round trip for
each value at the same fuel. -/
theorem parseEntries_serializeEntries (f : Nat)
    (IH : ∀ p rest, Plist.depth p ≤ f → Plist.good p →
      parsePlist f (Plist.serialize p ++ rest) = some (p, rest)) :
    ∀ (entries : List (String × Plist)) (rest : List Nat),
      Plist.depthEntries entries ≤ f → Plist.goodEntries entries →
      parseEntries f entries.length (Plist.serializeEntries entries ++ rest) =
        some (entries, rest)
  | [], rest, _, _ => by simp [Plist.serializeEntries, parseEntries]
  | (k, v) :: t, rest, hd, hg => by
    simp only [Plist.depthEntries, Nat.max_le] at hd
    simp only [Plist.goodEntries, Bool.and_eq_true, decide_eq_true_eq] at hg
    have ht := parseEntries_serializeEntries f IH t rest hd.2 hg.2
    simp only [Plist.serializeEntries, List.append_assoc, List.length_cons]
    rw [parseEntries]
    simp [parseStrBytes_serializeStr k hg.1.1, IH v _ hd.1 hg.1.2, ht]

/-- The modelled property-list reader inverts the modelled writer on
well-formed trees, with any fuel at least the tree depth. -/
theorem parsePlist_serialize (fuel : Nat) :
    ∀ (p : Plist) (rest : List Nat), Plist.depth p ≤ fuel → Plist.good p →
      parsePlist fuel (Plist.serialize p ++ rest) = some (p, rest) := by
  induction fuel with
  | zero =>
    intro p rest hd _
    have := Plist.one_le_depth p
    omega
  | succ f ih =>
    intro p rest hd hg
    match p with
    | .str s =>
      simp only [Plist.good, decide_eq_true_eq] at hg
      simp only [Plist.serialize, List.cons_append]
      rw [parsePlist]
      simp [parseStrBytes_serializeStr s hg rest]
    | .int v =>
      simp only [Plist.good, decide_eq_true_eq] at hg
      have hv : v % 18446744073709551616 = v := Nat.mod_eq_of_lt hg
      simp only [Plist.serialize, List.cons_append]
      rw [parsePlist]
      simp [hv]
    | .pbool b =>
      simp only [Plist.serialize]
      rw [show ([3, if b then 1 else 0] ++ rest) = 3 :: ((if b then 1 else 0) :: rest) from rfl]
      rw [parsePlist]
      cases b <;> simp
    | .pdata bs =>
      simp only [Plist.good, Bool.and_eq_true, decide_eq_true_eq] at hg
      have hv : bs.length % 18446744073709551616 = bs.length := Nat.mod_eq_of_lt hg.1
      have ht1 : (bs ++ rest).take bs.length = bs := List.take_left' rfl
      have ht2 : (bs ++ rest).drop bs.length = rest := List.drop_left' rfl
      simp only [Plist.serialize, List.cons_append, List.append_assoc]
      rw [parsePlist]
      simp [hv, ht1, ht2, map_mod256_of_all_lt bs hg.2]
    | .uid v =>
      simp only [Plist.good, decide_eq_true_eq] at hg
      have hv : v % 18446744073709551616 = v := Nat.mod_eq_of_lt hg
      simp only [Plist.serialize, List.cons_append]
      rw [parsePlist]
      simp [hv]
    | .array items =>
      simp only [Plist.good, Bool.and_eq_true, decide_eq_true_eq] at hg
      simp only [Plist.depth] at hd
      have hv : items.length % 18446744073709551616 = items.length := Nat.mod_eq_of_lt hg.1
      have hitems := parseItems_serializeItems f ih items rest (by omega) hg.2
      simp only [Plist.serialize, List.cons_append, List.append_assoc]
      rw [parsePlist]
      simp [hv, hitems]
    | .dict entries =>
      simp only [Plist.good, Bool.and_eq_true, decide_eq_true_eq] at hg
      simp only [Plist.depth] at hd
      have hv : entries.length % 18446744073709551616 = entries.length := Nat.mod_eq_of_lt hg.1
      have hentries := parseEntries_serializeEntries f ih entries rest (by omega) hg.2
      simp only [Plist.serialize, List.cons_append, List.append_assoc]
      rw [parsePlist]
      simp [hv, hentries]

/-- The archive of a plain string value, computed: two objects (sentinel
and the string itself, UID 1) under the standard archive dictionary. -/
theorem archive_str (s : String) :
    NSKeyedArchiver.archive (.str s) =
      Plist.serialize (.dict [("$archiver", .str "NSKeyedArchiver"),
        ("$version", .int 100000),
        ("$top", .dict [("root", .uid 1)]),
        ("$objects", .array [.str "$null", .str s])]) := by
  simp [NSKeyedArchiver.archive, ctxEncode, addObject]

/-- Length of the byte form of a string. -/
theorem length_strBytes : ∀ (cs : List Char),
    ((cs.map fun c => writeLE32 c.toNat).flatten).length = 4 * cs.length
  | [] => rfl
  | c :: t => by
    simp only [List.map_cons, List.flatten_cons, List.length_append, length_writeLE32,
      List.length_cons, length_strBytes t]
    omega

/-- Length of the serialized form of a string. -/
theorem length_serializeStr (s : String) : (serializeStr s).length = 8 + 4 * s.length := by
  have h := length_strBytes s.data
  simp only [serializeStr, List.length_append, length_writeLE64, strBytes, h]
  rfl

/-- Length of the archive of a plain string value. -/
theorem archive_str_length (s : String) :
    (NSKeyedArchiver.archive (.str s)).length = 324 + 4 * s.length := by
  rw [archive_str]
  simp only [Plist.serialize, Plist.serializeEntries, Plist.serializeItems,
    List.length_cons, List.length_append, length_writeLE64, length_serializeStr,
    List.length_nil]
  rw [show "$archiver".length = 9 from rfl, show "NSKeyedArchiver".length = 15 from rfl,
    show "$version".length = 8 from rfl,
    show "$top".length = 4 from rfl, show "root".length = 4 from rfl,
    show "$objects".length = 8 from rfl, show "$null".length = 5 from rfl]
  omega

set_option maxHeartbeats 2000000 in
set_option maxRecDepth 4000 in
/-- Unarchiving the archive of a string yields the string back, unless
the string is the literal sentinel text. -/
theorem unarchive_archive_str (s : String) (h0 : s ≠ "$null") (h64 : s.length < 2 ^ 29) :
    NSKeyedUnarchiver.unarchive (NSKeyedArchiver.archive (.str s)) = .str s := by
  have hlen := archive_str_length s
  have htree := parsePlist_serialize ((NSKeyedArchiver.archive (.str s)).length + 1)
    (.dict [("$archiver", .str "NSKeyedArchiver"),
      ("$version", .int 100000),
      ("$top", .dict [("root", .uid 1)]),
      ("$objects", .array [.str "$null", .str s])]) []
    (by
      rw [show Plist.depth (.dict [("$archiver", .str "NSKeyedArchiver"),
        ("$version", .int 100000),
        ("$top", .dict [("root", .uid 1)]),
        ("$objects", .array [.str "$null", .str s])]) = 3 from rfl]
      omega)
    (by
      simp only [Plist.good, Plist.goodEntries, Plist.goodItems, Bool.and_eq_true,
        decide_eq_true_eq, List.length_cons, List.length_nil]
      repeat' apply And.intro
      all_goals first
        | trivial
        | decide
        | omega)
  rw [← archive_str, List.append_nil] at htree
  rw [NSKeyedUnarchiver.unarchive]
  rw [if_neg (by omega)]
  rw [htree]
  simp only [show plistDictGet (Plist.dict [("$archiver", .str "NSKeyedArchiver"),
      ("$version", .int 100000),
      ("$top", .dict [("root", .uid 1)]),
      ("$objects", .array [.str "$null", .str s])]) "$archiver" =
        some (.str "NSKeyedArchiver") from rfl,
    show plistDictGet (Plist.dict [("$archiver", .str "NSKeyedArchiver"),
      ("$version", .int 100000),
      ("$top", .dict [("root", .uid 1)]),
      ("$objects", .array [.str "$null", .str s])]) "$objects" =
        some (.array [.str "$null", .str s]) from rfl,
    show plistDictGet (Plist.dict [("$archiver", .str "NSKeyedArchiver"),
      ("$version", .int 100000),
      ("$top", .dict [("root", .uid 1)]),
      ("$objects", .array [.str "$null", .str s])]) "$top" =
        some (.dict [("root", .uid 1)]) from rfl,
    show plistDictGet (Plist.dict [("root", Plist.uid 1)]) "root" = some (.uid 1) from rfl]
  rw [decodeValue]
  rw [show plistArrayGet (Plist.array [.str "$null", .str s]) 1 = some (.str s) from rfl]
  rw [decodeObject]
  rw [if_neg h0]

/-- Items of the primitive argument list whose round trip the code
supports: null; int32 values in range; int64 and uint64 values that fit
their 64-bit slots; strings other than the literal null sentinel and
short enough that their archive length fits the 32-bit length slot. -/
def auxItemOK : NSObj → Prop
  | .null => True
  | .i32 v => -(2 ^ 31) ≤ v ∧ v < 2 ^ 31
  | .i64 v => -(2 ^ 63) ≤ v ∧ v < 2 ^ 63
  | .u64 v => v < 2 ^ 64
  | .str s => s ≠ "$null" ∧ s.length < 2 ^ 29
  | _ => False

/-- What the decoder returns for an encoded item: int64 items come back
as uint64 carrying the same 64-bit pattern (tag 0x06 is decoded
unsigned); everything else is unchanged. -/
def auxPromote : NSObj → NSObj
  | .i64 v => .u64 (toUInt64pat v)
  | x => x

/-- The int32 round trip through the 32-bit pattern. -/
theorem toInt32_toUInt32pat (v : Int) (hlo : -(2 ^ 31) ≤ v) (hhi : v < 2 ^ 31) :
    toInt32 (toUInt32pat v) = v := by
  unfold toInt32 toUInt32pat
  omega

/-- Decoding one encoded entry consumes exactly that entry and yields
the promoted item, then continues with the remaining bytes. -/
theorem decodeEntries_encodeEntry (x : NSObj) (h : auxItemOK x) (rest : List Nat) :
    DTXPrimitiveDict.decodeEntries (DTXPrimitiveDict.encodeEntry x ++ rest) =
      auxPromote x :: DTXPrimitiveDict.decodeEntries rest := by
  match x with
  | .null =>
    rw [DTXPrimitiveDict.encodeEntry]
    rw [DTXPrimitiveDict.decodeEntries]
    simp only [List.append_assoc, List.length_append, length_writeLE32,
      drop_writeLE32_append, readLE32_writeLE32]
    rw [dif_pos (by omega)]
    rw [show auxPromote NSObj.null = NSObj.null from rfl]
    rw [if_pos (by decide)]
    rw [show List.drop 8 (writeLE32 10 ++ (writeLE32 10 ++ rest)) = rest from rfl]
  | .i32 v =>
    obtain ⟨hlo, hhi⟩ := h
    have ht : toUInt32pat v % 2 ^ 32 = toUInt32pat v := by
      unfold toUInt32pat
      omega
    rw [DTXPrimitiveDict.encodeEntry]
    rw [DTXPrimitiveDict.decodeEntries]
    simp only [List.append_assoc, List.length_append, length_writeLE32,
      drop_writeLE32_append, readLE32_writeLE32]
    rw [dif_pos (by omega)]
    rw [show auxPromote (NSObj.i32 v) = NSObj.i32 v from rfl]
    rw [if_neg (by decide), if_pos (by decide)]
    rw [show List.drop 8 (writeLE32 10 ++ (writeLE32 3 ++ (writeLE32 (toUInt32pat v) ++ rest))) =
      writeLE32 (toUInt32pat v) ++ rest from rfl]
    rw [if_pos (by simp)]
    rw [readLE32_writeLE32, ht, toInt32_toUInt32pat v hlo hhi, drop_writeLE32_append]
  | .u64 v =>
    rw [DTXPrimitiveDict.encodeEntry]
    rw [DTXPrimitiveDict.decodeEntries]
    simp only [List.append_assoc, List.length_append, length_writeLE32,
      drop_writeLE32_append, readLE32_writeLE32]
    rw [dif_pos (by omega)]
    rw [show auxPromote (NSObj.u64 v) = NSObj.u64 v from rfl]
    rw [if_neg (by decide), if_neg (by decide), if_pos (by decide)]
    rw [show List.drop 8 (writeLE32 10 ++ (writeLE32 6 ++ (writeLE64 v ++ rest))) =
      writeLE64 v ++ rest from rfl]
    rw [if_pos (by simp)]
    rw [readLE64_writeLE64, Nat.mod_eq_of_lt h, drop_writeLE64_append]
  | .i64 v =>
    obtain ⟨hlo, hhi⟩ := h
    have ht : toUInt64pat v % 2 ^ 64 = toUInt64pat v := by
      unfold toUInt64pat
      omega
    rw [DTXPrimitiveDict.encodeEntry]
    rw [DTXPrimitiveDict.decodeEntries]
    simp only [List.append_assoc, List.length_append, length_writeLE32,
      drop_writeLE32_append, readLE32_writeLE32]
    rw [dif_pos (by omega)]
    rw [show auxPromote (NSObj.i64 v) = NSObj.u64 (toUInt64pat v) from rfl]
    rw [if_neg (by decide), if_neg (by decide), if_pos (by decide)]
    rw [show List.drop 8 (writeLE32 10 ++ (writeLE32 6 ++ (writeLE64 (toUInt64pat v) ++ rest))) =
      writeLE64 (toUInt64pat v) ++ rest from rfl]
    rw [if_pos (by simp)]
    rw [readLE64_writeLE64, ht, drop_writeLE64_append]
  | .str s =>
    obtain ⟨h0, h29⟩ := h
    have hlen := archive_str_length s
    have harch : (NSKeyedArchiver.archive (.str s)).length % 2 ^ 32 =
        (NSKeyedArchiver.archive (.str s)).length := by
      rw [Nat.mod_eq_of_lt]
      omega
    rw [DTXPrimitiveDict.encodeEntry]
    rw [DTXPrimitiveDict.decodeEntries]
    simp only [List.append_assoc, List.length_append, length_writeLE32,
      drop_writeLE32_append, readLE32_writeLE32]
    rw [dif_pos (by omega)]
    rw [show auxPromote (NSObj.str s) = NSObj.str s from rfl]
    rw [if_neg (by decide), if_neg (by decide), if_neg (by decide), if_pos (by decide)]
    rw [show List.drop 8 (writeLE32 10 ++ (writeLE32 2 ++ (writeLE32
      (NSKeyedArchiver.archive (.str s)).length ++ (NSKeyedArchiver.archive (.str s) ++ rest)))) =
      writeLE32 (NSKeyedArchiver.archive (.str s)).length ++
        (NSKeyedArchiver.archive (.str s) ++ rest) from rfl]
    rw [if_pos (by simp)]
    rw [readLE32_writeLE32, harch, drop_writeLE32_append]
    rw [if_pos (by simp)]
    rw [List.take_left' rfl, List.drop_left' rfl]
    rw [if_pos (by omega)]
    rw [unarchive_archive_str s h0 h29]
    all_goals exact nofun

/-- Decoding the empty buffer yields no items. -/
theorem decodeEntries_nil : DTXPrimitiveDict.decodeEntries [] = [] := by
  rw [DTXPrimitiveDict.decodeEntries]
  simp

/-- Decode never inspects the length guard separately from the entry
loop: on an empty buffer both return no items. -/
theorem decode_eq_decodeEntries (data : List Nat) :
    DTXPrimitiveDict.decode data = DTXPrimitiveDict.decodeEntries data := by
  rw [DTXPrimitiveDict.decode]
  by_cases h : data.length = 0
  · rw [if_pos h, List.eq_nil_of_length_eq_zero h, decodeEntries_nil]
  · rw [if_neg h]

/-- Decoding the encoding of a supported item list consumes it entry by
entry and continues with the remaining bytes. -/
theorem decodeEntries_encode_append (xs : List NSObj) (h : ∀ x ∈ xs, auxItemOK x)
    (rest : List Nat) :
    DTXPrimitiveDict.decodeEntries (DTXPrimitiveDict.encode xs ++ rest) =
      xs.map auxPromote ++ DTXPrimitiveDict.decodeEntries rest := by
  induction xs with
  | nil => simp [DTXPrimitiveDict.encode]
  | cons x t ih =>
    have hx : auxItemOK x := h x (List.mem_cons_self x t)
    have ht : ∀ y ∈ t, auxItemOK y := fun y hy => h y (List.mem_cons_of_mem x hy)
    simp only [DTXPrimitiveDict.encode, List.map_cons, List.flatten_cons, List.append_assoc]
    rw [decodeEntries_encodeEntry x hx]
    rw [show (t.map DTXPrimitiveDict.encodeEntry).flatten = DTXPrimitiveDict.encode t from rfl]
    rw [ih ht]
    simp

/-- Claim C2, counterexample: at the concrete input list holding the
single item i64 5, DTXPrimitiveDict::Decode applied to
DTXPrimitiveDict::Encode returns u64 5, not i64 5 — the items are not
equal, so the round trip does not return a list equal to the input. -/
theorem C2_primitive_dict_roundtrip_cex :
    DTXPrimitiveDict.decode (DTXPrimitiveDict.encode [NSObj.i64 5]) = [NSObj.u64 5] ∧
    ([NSObj.u64 5] : List NSObj) ≠ [NSObj.i64 5] := by
  constructor
  · rw [decode_eq_decodeEntries]
    have h := decodeEntries_encode_append [NSObj.i64 5]
      (by
        intro x hx
        simp only [List.mem_singleton] at hx
        subst hx
        exact ⟨by norm_num, by norm_num⟩) []
    rw [List.append_nil] at h
    rw [h, decodeEntries_nil]
    simp only [List.map_cons, List.map_nil]
    rw [show auxPromote (NSObj.i64 5) = NSObj.u64 (toUInt64pat 5) from rfl]
    rw [show toUInt64pat 5 = 5 by decide]
    simp
  · intro h
    injection h with h1 _
    cases h1

/-- Claim C2, amended: for every primitive-argument list xs whose items
are null, in-range i32, in-range i64, in-range u64, or a string other
than the literal null sentinel and short enough for its archive to fit
the 32-bit length slot, DTXPrimitiveDict::Decode applied to
DTXPrimitiveDict::Encode(xs) returns xs item for item and in order,
except that every i64 item is returned as a u64 carrying the same
64-bit two's-complement pattern. -/
theorem C2_primitive_dict_roundtrip (xs : List NSObj) (h : ∀ x ∈ xs, auxItemOK x) :
    DTXPrimitiveDict.decode (DTXPrimitiveDict.encode xs) = xs.map auxPromote := by
  rw [decode_eq_decodeEntries]
  have hx := decodeEntries_encode_append xs h []
  rw [List.append_nil] at hx
  rw [hx, decodeEntries_nil, List.append_nil]

/-- Witness for the amended claim C2 at a concrete list covering every
supported item kind. -/
theorem C2_primitive_dict_roundtrip_witness :
    DTXPrimitiveDict.decode (DTXPrimitiveDict.encode
        [NSObj.null, NSObj.i32 (-3), NSObj.i64 (-1), NSObj.u64 9, NSObj.str "ab"]) =
      [NSObj.null, NSObj.i32 (-3), NSObj.u64 (2 ^ 64 - 1), NSObj.u64 9, NSObj.str "ab"] := by
  have h := C2_primitive_dict_roundtrip
    [NSObj.null, NSObj.i32 (-3), NSObj.i64 (-1), NSObj.u64 9, NSObj.str "ab"]
    (by
      intro x hx
      simp only [List.mem_cons, List.mem_singleton] at hx
      rcases hx with rfl | rfl | rfl | rfl | rfl | h0
      · trivial
      · exact ⟨by norm_num, by norm_num⟩
      · exact ⟨by norm_num, by norm_num⟩
      · exact ((by norm_num : (9 : Nat) < 2 ^ 64) : auxItemOK (NSObj.u64 9))
      · exact ⟨by decide, by decide⟩
      · cases h0)
  rw [h]
  simp only [List.map_cons, List.map_nil]
  rw [show auxPromote NSObj.null = NSObj.null from rfl,
    show auxPromote (NSObj.i32 (-3)) = NSObj.i32 (-3) from rfl,
    show auxPromote (NSObj.i64 (-1)) = NSObj.u64 (toUInt64pat (-1)) from rfl,
    show auxPromote (NSObj.u64 9) = NSObj.u64 9 from rfl,
    show auxPromote (NSObj.str "ab") = NSObj.str "ab" from rfl,
    show toUInt64pat (-1) = 2 ^ 64 - 1 by decide]

/-- Claim C7, counterexample: the encoded entry for the single auxiliary
argument u64(42) does not begin with the byte 0x10 — its first byte is
the 0x0A empty-dictionary marker, so the claimed 16-byte prefix is
wrong in its first four bytes. -/
theorem C7_encode_u64_42_cex :
    (DTXPrimitiveDict.encodeEntry (NSObj.u64 42)).take 16 ≠
      [0x10, 0x00, 0x00, 0x00, 0x06, 0x00, 0x00, 0x00,
       0x2A, 0x00, 0x00, 0x00, 0x00, 0x00, 0x00, 0x00] := by
  decide

/-- Claim C7, amended: encoding the auxiliary list containing the single
argument u64(42) produces a byte sequence whose first 16 bytes are
0A 00 00 00 06 00 00 00 2A 00 00 00 00 00 00 00 (marker 0x0A, tag 0x06,
value 42 little-endian). -/
theorem C7_encode_u64_42 :
    DTXPrimitiveDict.encode [NSObj.u64 42] =
      [0x0A, 0x00, 0x00, 0x00, 0x06, 0x00, 0x00, 0x00,
       0x2A, 0x00, 0x00, 0x00, 0x00, 0x00, 0x00, 0x00] := by
  decide

/-- Claim C10: for every auxiliary byte sequence consisting of well-formed
encoded entries followed by a complete entry header whose type tag is
outside the five known tags (0x01, 0x02, 0x03, 0x06, 0x0A),
DTXPrimitiveDict::Decode returns the items decoded before the unknown
entry plus one trailing null for it, and stops there regardless of what
bytes follow. -/
theorem C10_unknown_tag_null (xs : List NSObj) (h : ∀ x ∈ xs, auxItemOK x)
    (m t : Nat) (junk : List Nat)
    (h1 : t % 2 ^ 32 ≠ 0x01) (h2 : t % 2 ^ 32 ≠ 0x02) (h3 : t % 2 ^ 32 ≠ 0x03)
    (h6 : t % 2 ^ 32 ≠ 0x06) (hA : t % 2 ^ 32 ≠ 0x0A) :
    DTXPrimitiveDict.decode
        (DTXPrimitiveDict.encode xs ++ (writeLE32 m ++ (writeLE32 t ++ junk))) =
      xs.map auxPromote ++ [NSObj.null] := by
  rw [decode_eq_decodeEntries]
  rw [decodeEntries_encode_append xs h]
  rw [DTXPrimitiveDict.decodeEntries]
  simp only [List.length_append, length_writeLE32, drop_writeLE32_append, readLE32_writeLE32]
  rw [dif_pos (by omega)]
  rw [if_neg hA, if_neg h3, if_neg h6]
  rw [if_neg (by
    intro hor
    cases hor with
    | inl h => exact h1 h
    | inr h => exact h2 h)]

/-- Witness for claim C10 at a concrete prefix and the unknown tag 5. -/
theorem C10_unknown_tag_null_witness :
    DTXPrimitiveDict.decode
        (DTXPrimitiveDict.encode [NSObj.u64 7] ++ (writeLE32 10 ++ (writeLE32 5 ++ [1, 2, 3]))) =
      [NSObj.u64 7, NSObj.null] := by
  have h := C10_unknown_tag_null [NSObj.u64 7]
    (by
      intro x hx
      simp only [List.mem_singleton] at hx
      subst hx
      exact ((by norm_num : (7 : Nat) < 2 ^ 64) : auxItemOK (NSObj.u64 7)))
    10 5 [1, 2, 3] (by decide) (by decide) (by decide) (by decide) (by decide)
  rw [h]
  simp only [List.map_cons, List.map_nil]
  rw [show auxPromote (NSObj.u64 7) = NSObj.u64 7 from rfl]
  rfl

/-!
LZ4 decompression (src/src/util/lz4.cpp).  The block decoder, the frame
decoder and the dictionary variant are embedded with a fuel argument
equal to the input length plus one; every loop iteration of the source
consumes at least one input byte, so the fuel never runs out on the
inputs the source can process.  No verified claim examines their output;
they are embedded so that DTXMessage::Decode keeps the source's shape.
-/

/-- The length-extension loop of the LZ4 token format: add bytes while
they are 255; fails at end of input, as the source returns false. -/
def lz4ReadLen : List Nat → Nat → Option (Nat × List Nat)
  | [], _ => none
  | s :: rest, len => if s = 255 then lz4ReadLen rest (len + s) else some (len + s, rest)

/-- Byte-by-byte overlapping match copy: append count bytes, each read
at distance offset from the current end of the output. -/
def lz4MatchCopy (dst : List Nat) (offset : Nat) : Nat → List Nat
  | 0 => dst
  | k + 1 => lz4MatchCopy (dst ++ [dst.getD (dst.length - offset) 0]) offset k

/-- The sequence loop of LZ4::Decompress in lz4.cpp (block format):
token, literals, offset, match copy, bounded by the output capacity. -/
def lz4Loop : Nat → List Nat → List Nat → Nat → Option (List Nat)
  | _, [], dst, _ => some dst
  | 0, _ :: _, _, _ => none
  | fuel + 1, token :: rest, dst, dstCapacity =>
    let step : Option (Nat × List Nat) :=
      if token / 16 % 16 = 15 then lz4ReadLen rest 15 else some (token / 16 % 16, rest)
    match step with
    | none => none
    | some (litLen, rest1) =>
      if litLen > 0 ∧ (litLen > rest1.length ∨ dst.length + litLen > dstCapacity) then none
      else
        let dst1 := dst ++ rest1.take litLen
        let rest2 := rest1.drop litLen
        match rest2 with
        | [] => some dst1
        | b0 :: rest2a =>
          match rest2a with
          | [] => none
          | b1 :: rest3 =>
            let offset := b0 + 256 * b1
            if offset = 0 then none
            else if offset > dst1.length then none
            else
              let mstep : Option (Nat × List Nat) :=
                if token % 16 + 4 = 19 then lz4ReadLen rest3 19
                else some (token % 16 + 4, rest3)
              match mstep with
              | none => none
              | some (matchLen, rest4) =>
                if dst1.length + matchLen > dstCapacity then none
                else lz4Loop fuel rest4 (lz4MatchCopy dst1 offset matchLen) dstCapacity

/-- LZ4::Decompress (vector form): empty on failure, the produced bytes
on success. -/
def LZ4.decompress (src : List Nat) (maxDecompressedSize : Nat) : List Nat :=
  if src.length = 0 ∨ maxDecompressedSize = 0 then []
  else
    match lz4Loop (src.length + 1) src [] maxDecompressedSize with
    | some out => out
    | none => []

/-- The match copy of LZ4::DecompressWithDict, reading from the
dictionary below position zero of the output. -/
def lz4MatchCopyDict (dict dst : List Nat) (matchPos : Nat) : Nat → List Nat
  | 0 => dst
  | k + 1 =>
    let srcPos := matchPos
    let byte := if srcPos < dict.length then dict.getD srcPos 0
      else dst.getD (srcPos - dict.length) 0
    lz4MatchCopyDict dict (dst ++ [byte]) (matchPos + 1) k

/-- The sequence loop of LZ4::DecompressWithDict in lz4.cpp. -/
def lz4LoopDict : Nat → List Nat → List Nat → Nat → List Nat → Option (List Nat)
  | _, [], dst, _, _ => some dst
  | 0, _ :: _, _, _, _ => none
  | fuel + 1, token :: rest, dst, dstCapacity, dict =>
    let step : Option (Nat × List Nat) :=
      if token / 16 % 16 = 15 then lz4ReadLen rest 15 else some (token / 16 % 16, rest)
    match step with
    | none => none
    | some (litLen, rest1) =>
      if litLen > 0 ∧ (litLen > rest1.length ∨ dst.length + litLen > dstCapacity) then none
      else
        let dst1 := dst ++ rest1.take litLen
        let rest2 := rest1.drop litLen
        match rest2 with
        | [] => some dst1
        | b0 :: rest2a =>
          match rest2a with
          | [] => none
          | b1 :: rest3 =>
            let offset := b0 + 256 * b1
            if offset = 0 then none
            else if offset > dict.length + dst1.length then none
            else
              let mstep : Option (Nat × List Nat) :=
                if token % 16 + 4 = 19 then lz4ReadLen rest3 19
                else some (token % 16 + 4, rest3)
              match mstep with
              | none => none
              | some (matchLen, rest4) =>
                if dst1.length + matchLen > dstCapacity then none
                else lz4LoopDict fuel rest4
                  (lz4MatchCopyDict dict dst1 (dict.length + dst1.length - offset) matchLen)
                  dstCapacity dict

/-- LZ4::DecompressWithDict (vector form). -/
def LZ4.decompressWithDict (src : List Nat) (maxDecompressedSize : Nat)
    (dict : List Nat) : List Nat :=
  if src.length = 0 ∨ maxDecompressedSize = 0 then []
  else
    match lz4LoopDict (src.length + 1) src [] maxDecompressedSize dict with
    | some out => out
    | none => []

/-- The block loop of LZ4::DecompressFrame: 4-byte block sizes, a high
bit marking uncompressed blocks, a zero size ending the frame, each
compressed block fed to the block decoder with the block maximum size
as its capacity. -/
def lz4FrameBlocks : Nat → List Nat → Nat → Nat → List Nat → Option (List Nat)
  | 0, _, _, _, _ => none
  | fuel + 1, src, outputLimit, blockMaxSize, out =>
    if src.length < 4 then some out
    else
      let blockSize0 := readLE32 src
      let rest := src.drop 4
      if blockSize0 = 0 then some out
      else
        let uncompressed := blockSize0 / 2 ^ 31 % 2 = 1
        let blockSize := blockSize0 % 2 ^ 31
        if blockSize > rest.length then none
        else if uncompressed then
          if out.length + blockSize > outputLimit ∧ outputLimit > 0 then none
          else lz4FrameBlocks fuel (rest.drop blockSize) outputLimit blockMaxSize
            (out ++ rest.take blockSize)
        else
          let blockOut? :=
            if blockSize = 0 ∨ blockMaxSize = 0 then none
            else lz4Loop (blockSize + 1) (rest.take blockSize) [] blockMaxSize
          match blockOut? with
          | none => none
          | some blockOut =>
            if out.length + blockOut.length > outputLimit ∧ outputLimit > 0 then none
            else lz4FrameBlocks fuel (rest.drop blockSize) outputLimit blockMaxSize
              (out ++ blockOut)

/-- LZ4::DecompressFrame in lz4.cpp: frame magic, flags, optional
content size and dictionary id, then the block loop, each compressed
block fed to the block decoder. -/
def LZ4.decompressFrame (src : List Nat) (maxDecompressedSize : Nat) : List Nat :=
  if src.length < 7 then []
  else if readLE32 src ≠ 0x184D2204 then []
  else
    let flg := src.getD 4 0
    let bd := src.getD 5 0
    if flg / 64 % 4 ≠ 1 then []
    else
      let hasContentSize := flg / 8 % 2 = 1
      let hasDictId := flg % 2 = 1
      let pos1 := 6
      if hasContentSize ∧ src.length < pos1 + 8 then []
      else
        let contentSize := if hasContentSize then readLE64 (src.drop pos1) else 0
        let pos2 := if hasContentSize then pos1 + 8 else pos1
        if hasDictId ∧ src.length < pos2 + 4 then []
        else
          let pos3 := if hasDictId then pos2 + 4 else pos2
          if src.length < pos3 + 1 then []
          else
            let pos4 := pos3 + 1
            let blockMaxSize :=
              if bd / 16 % 8 = 4 then 2 ^ 16
              else if bd / 16 % 8 = 5 then 2 ^ 18
              else if bd / 16 % 8 = 6 then 2 ^ 20
              else if bd / 16 % 8 = 7 then 2 ^ 22
              else 2 ^ 16
            let outputLimit :=
              if contentSize > 0 ∧ contentSize < maxDecompressedSize then contentSize
              else maxDecompressedSize
            match lz4FrameBlocks (src.length + 1) (src.drop pos4) outputLimit
              blockMaxSize [] with
            | some out => out
            | none => []

/-- Big-endian read of eight bytes, mirroring the readBE64 lambda in
tryBplistFallback in dtx_message.cpp. -/
def readBE64 (l : List Nat) : Nat :=
  2 ^ 56 * l.getD 0 0 + 2 ^ 48 * l.getD 1 0 + 2 ^ 40 * l.getD 2 0 + 2 ^ 32 * l.getD 3 0 +
  2 ^ 24 * l.getD 4 0 + 2 ^ 16 * l.getD 5 0 + 2 ^ 8 * l.getD 6 0 + l.getD 7 0

/-- Chunk scan of TryDecodeBV4Container in dtx_message.cpp, after the
implicit first chunk: a big-endian tag selects a compressed chunk
(bv41), a literal chunk (bv4-), or the terminator (bv4$); an unknown tag
ends the scan, a malformed chunk fails it.  Each chunk is
(compressed, uncompressed-length, bytes). -/
def bv4ScanChunks : Nat → List Nat → Option (List (Bool × Nat × List Nat))
  | 0, _ => some []
  | fuel + 1, src =>
    if src.length < 4 then some []
    else
      let tag := readBE32 src
      if tag = 0x62763424 then some []
      else if tag = 0x62763431 then
        if src.length < 12 then none
        else
          let u := readLE32 (src.drop 4)
          let c := readLE32 (src.drop 8)
          if c = 0 ∨ c > (src.drop 12).length then none
          else
            match bv4ScanChunks fuel ((src.drop 12).drop c) with
            | none => none
            | some t => some ((true, u, (src.drop 12).take c) :: t)
      else if tag = 0x6276342D then
        if src.length < 8 then none
        else
          let u := readLE32 (src.drop 4)
          if u = 0 ∨ u > (src.drop 8).length then none
          else
            match bv4ScanChunks fuel ((src.drop 8).drop u) with
            | none => none
            | some t => some ((false, u, (src.drop 8).take u) :: t)
      else some []

/-- Per-chunk decompression of the bv4 container, threading up to 64 KiB
of previous output as an LZ4 dictionary, with the frame decoder as the
per-chunk fallback. -/
def bv4DecompressSeq : List (Bool × Nat × List Nat) → List Nat → Option (List Nat)
  | [], out => some out
  | (ch : Bool × Nat × List Nat) :: t, out =>
    if ch.1 then
      let dictSize := if out.length > 65536 then 65536 else out.length
      let dict := out.drop (out.length - dictSize)
      let dec := LZ4.decompressWithDict ch.2.2 ch.2.1 dict
      let dec2 := if dec = [] then LZ4.decompressFrame ch.2.2 ch.2.1 else dec
      if dec2 = [] then none else bv4DecompressSeq t (out ++ dec2)
    else bv4DecompressSeq t (out ++ ch.2.2)

/-- Reassembly of the bv4 fallback path: slices of the aggregate
decompression are dealt to the compressed chunks in order, literal
chunks contribute their own bytes, and a short aggregate ends the
assembly early. -/
def bv4FromAgg : List (Bool × Nat × List Nat) → List Nat → Nat → List Nat
  | [], _, _ => []
  | (ch : Bool × Nat × List Nat) :: t, decAll, decPos =>
    if ch.1 then
      let take0 := if decPos + ch.2.1 > decAll.length then decAll.length - decPos else ch.2.1
      if take0 = 0 then []
      else ((decAll.drop decPos).take take0) ++ bv4FromAgg t decAll (decPos + take0)
    else ch.2.2 ++ bv4FromAgg t decAll decPos

/-- The aggregate fallback of TryDecodeBV4Container: all compressed
bytes are decompressed as one stream with the summed uncompressed
length, then dealt back to the chunks. -/
def bv4AggPath (sequence : List (Bool × Nat × List Nat)) : List Nat :=
  let compressedAgg := ((sequence.filter (fun ch => ch.1)).map (fun ch => ch.2.2)).flatten
  if compressedAgg = [] then []
  else
    let totalU := ((sequence.filter (fun ch => ch.1)).map (fun ch => ch.2.1)).sum
    let decAll := LZ4.decompress compressedAgg totalU
    let decAll2 := if decAll = [] then LZ4.decompressFrame compressedAgg totalU else decAll
    if decAll2 = [] then []
    else bv4FromAgg sequence decAll2 0

/-- TryDecodeBV4Container in dtx_message.cpp: the implicit first chunk,
the tagged chunk scan, the per-chunk path and the aggregate fallback. -/
def tryDecodeBV4Container (data : List Nat) : List Nat :=
  if data.length < 8 then []
  else
    let u0 := readLE32 data
    let c0 := readLE32 (data.drop 4)
    if c0 = 0 ∨ c0 > (data.drop 8).length then []
    else
      match bv4ScanChunks (data.length + 1) ((data.drop 8).drop c0) with
      | none => []
      | some restChunks =>
        let sequence := (true, u0, (data.drop 8).take c0) :: restChunks
        match bv4DecompressSeq sequence [] with
        | some out => if out ≠ [] then out else bv4AggPath sequence
        | none => bv4AggPath sequence

/-- First offset of the ASCII bytes of bplist in the buffer, mirroring
the forward scans of tryBplistFallback. -/
def bplistFind : List Nat → Nat → Option Nat
  | l, i =>
    if l.length < 6 then none
    else if l.take 6 = [98, 112, 108, 105, 115, 116] then some i
    else bplistFind l.tail (i + 1)
termination_by l _ => l.length
decreasing_by
  simp only [List.length_tail]
  omega

/-- The backwards trailer scan of findPlistLength in tryBplistFallback:
the largest end position whose last 32 bytes look like a binary
property-list trailer, or zero. -/
def bplistLenLoop (bytes : List Nat) : Nat → Nat
  | 0 => 0
  | e + 1 =>
    if e + 1 < 32 then 0
    else
      let trailer := bytes.drop (e + 1 - 32)
      let offsetIntSize := trailer.getD 6 0
      let objectRefSize := trailer.getD 7 0
      let numObjects := readBE64 (trailer.drop 8)
      let topObject := readBE64 (trailer.drop 16)
      let offsetTableOffset := readBE64 (trailer.drop 24)
      if offsetIntSize ≠ 0 ∧ offsetIntSize ≤ 8 ∧ objectRefSize ≠ 0 ∧ objectRefSize ≤ 8 ∧
          numObjects ≠ 0 ∧ numObjects ≤ 0xFFFFFFFF ∧ topObject < numObjects ∧
          offsetTableOffset < e + 1 - 32 ∧
          offsetTableOffset + numObjects * offsetIntSize ≤ e + 1 - 32 then e + 1
      else bplistLenLoop bytes e

/-- tryBplistFallback in DTXMessage::Decode, reduced to the bytes it
extracts: the range from the first bplist magic up to the next magic,
the detected trailer end, or the end of the buffer. -/
def tryBplistFallback (scan : List Nat) : Option (List Nat) :=
  if scan.length < 8 then none
  else
    match bplistFind scan 0 with
    | none => none
    | some i =>
      let found := scan.drop i
      let maxLen := found.length
      let plistLen0 := match bplistFind (found.drop 6) 0 with
        | some j => j + 6
        | none => 0
      let plistLen1 := if plistLen0 = 0 then bplistLenLoop found maxLen else plistLen0
      let plistLen := if plistLen1 = 0 then maxLen else plistLen1
      some (found.take plistLen)

/-!
DTX message assembly (src/src/dtx/dtx_message.cpp and the header and
protocol constants in include/instruments/dtx_message.h and types.h).
-/

/-- DTX protocol constants from include/instruments/types.h. -/
def DTXProtocol.Magic : Nat := 0x795B3D1F

/-- Frame header length in bytes. -/
def DTXProtocol.HeaderLength : Nat := 32

/-- Payload header (and auxiliary sub-header) length in bytes. -/
def DTXProtocol.PayloadHeaderLength : Nat := 16

/-- The 32-byte DTX frame header (DTXMessageHeader in dtx_message.h);
all fields are machine words modelled as Nat. -/
structure DTXMessageHeader where
  magic : Nat := DTXProtocol.Magic
  headerLength : Nat := DTXProtocol.HeaderLength
  fragmentIndex : Nat := 0
  fragmentCount : Nat := 1
  messageLength : Nat := 0
  identifier : Nat := 0
  conversationIndex : Nat := 0
  channelCode : Nat := 0
  expectsReply : Nat := 0
deriving DecidableEq

/-- The 16-byte DTX payload header (DTXPayloadHeader in dtx_message.h). -/
structure DTXPayloadHeader where
  messageType : Nat := 0
  auxiliaryLength : Nat := 0
  totalPayloadLength : Nat := 0
  flags : Nat := 0
deriving DecidableEq

/-- A DTX message (the DTXMessage fields m_header, m_payloadHeader,
m_payload, m_auxiliary).  The decoded auxiliary item cache m_auxItems is
derived state maintained by AppendAuxiliary and is not part of the wire
round trip. -/
structure DTXMsg where
  header : DTXMessageHeader := {}
  payloadHeader : DTXPayloadHeader := {}
  payload : List Nat := []
  auxiliary : List Nat := []
deriving DecidableEq

/-- The payload section built by DTXMessage::Encode: nothing when the
message has no payload bytes, no auxiliary bytes and a type other than
Ack; otherwise the 16-byte payload header, the auxiliary sub-header and
bytes when auxiliary is present, then the payload bytes. -/
def DTXMessage.payloadSection (m : DTXMsg) : List Nat :=
  let auxLen := m.auxiliary.length
  let payloadLen := m.payload.length
  let auxLenWithHeader := if auxLen > 0 then auxLen + DTXProtocol.PayloadHeaderLength else 0
  let totalPayloadLen := auxLenWithHeader + payloadLen
  if totalPayloadLen > 0 ∨ m.payloadHeader.messageType = 0 then
    writeLE32 m.payloadHeader.messageType ++ writeLE32 auxLenWithHeader ++
    writeLE32 totalPayloadLen ++ writeLE32 m.payloadHeader.flags ++
    ((if auxLen > 0 then writeLE64 0x1F0 ++ writeLE64 auxLen ++ m.auxiliary else []) ++
     m.payload)
  else []

/-- DTXMessage::Encode, single fragment as the source emits (its
fragmentation on send is an explicit TODO): the 32-byte frame header
with big-endian magic and little-endian fields, fragment index 0,
fragment count 1, then the payload section. -/
def DTXMessage.encode (m : DTXMsg) : List Nat :=
  let ps := DTXMessage.payloadSection m
  writeBE32 DTXProtocol.Magic ++ writeLE32 DTXProtocol.HeaderLength ++
  writeLE16 0 ++ writeLE16 1 ++ writeLE32 ps.length ++
  writeLE32 m.header.identifier ++ writeLE32 m.header.conversationIndex ++
  writeLE32 m.header.channelCode ++ writeLE32 m.header.expectsReply ++ ps

/-- DTXMessage::ParseHeader: reject short buffers, accept the magic in
either byte order (normalizing to the big-endian reading when the
little-endian one does not match), then read the fields little-endian. -/
def DTXMessage.parseHeader (data : List Nat) : Option DTXMessageHeader :=
  if data.length < DTXProtocol.HeaderLength then none
  else if readLE32 data ≠ DTXProtocol.Magic ∧ readBE32 data ≠ DTXProtocol.Magic then none
  else
    some {
      magic := if readLE32 data ≠ DTXProtocol.Magic then readBE32 data else readLE32 data
      headerLength := readLE32 (data.drop 4)
      fragmentIndex := readLE16 (data.drop 8)
      fragmentCount := readLE16 (data.drop 10)
      messageLength := readLE32 (data.drop 12)
      identifier := readLE32 (data.drop 16)
      conversationIndex := readLE32 (data.drop 20)
      channelCode := readLE32 (data.drop 24)
      expectsReply := readLE32 (data.drop 28) }

/-- The parsePayloadSection lambda in DTXMessage::Decode: read the
payload header, validate the lengths and the type (zero and the LZ4
marker are rejected), then slice out the auxiliary bytes (after the
16-byte auxiliary sub-header) and the payload bytes. -/
def DTXMessage.parsePayloadSection (buf : List Nat) :
    Option (DTXPayloadHeader × List Nat × List Nat) :=
  if buf.length < DTXProtocol.PayloadHeaderLength then none
  else
    let ph : DTXPayloadHeader := {
      messageType := readLE32 buf
      auxiliaryLength := readLE32 (buf.drop 4)
      totalPayloadLength := readLE32 (buf.drop 8)
      flags := readLE32 (buf.drop 12) }
    let remaining := buf.length - DTXProtocol.PayloadHeaderLength
    if ph.totalPayloadLength > remaining then none
    else if ph.auxiliaryLength > ph.totalPayloadLength then none
    else if ph.messageType = 0 ∨ ph.messageType = 0x0707 then none
    else
      let auxLen := ph.auxiliaryLength
      let aux := if auxLen > 0 ∧ auxLen ≤ remaining ∧ auxLen > DTXProtocol.PayloadHeaderLength
        then (buf.drop 32).take (auxLen - DTXProtocol.PayloadHeaderLength) else []
      let payload := if remaining > auxLen
        then (buf.drop (DTXProtocol.PayloadHeaderLength + auxLen)).take (remaining - auxLen)
        else []
      some (ph, aux, payload)

/-- The inline header of an LZ4Compressed payload (DTXMessage::Decode
lines reading origType and decompSize): both fields are read
little-endian, and the big-endian reading of both is substituted when
the little-endian decompressed size is zero or above 128 MiB. -/
def DTXMessage.lz4InlineHeader (payloadStart : List Nat) : Nat × Nat :=
  let origType := readLE32 payloadStart
  let decompSize := readLE32 (payloadStart.drop 4)
  if decompSize = 0 ∨ decompSize > 128 * 1024 * 1024 then
    (readBE32 payloadStart, readBE32 (payloadStart.drop 4))
  else (origType, decompSize)

/-- The LZ4Compressed branch of DTXMessage::Decode: the 8-byte inline
header, the decompression ladder (raw block, frame, bv4 container),
then a reparse of the decompressed bytes as a payload section, a bplist
scan, or the aux-and-payload split fallback. -/
def DTXMessage.decodeLZ4 (header : DTXMessageHeader) (ph : DTXPayloadHeader)
    (data : List Nat) : DTXMsg :=
  let payloadStart := data.drop DTXProtocol.PayloadHeaderLength
  let remaining := data.length - DTXProtocol.PayloadHeaderLength
  if remaining < 8 then { header := header, payloadHeader := ph }
  else
    let ot := DTXMessage.lz4InlineHeader payloadStart
    let maxOut := if ot.2 = 0 ∨ ot.2 > 128 * 1024 * 1024 then 64 * 1024 * 1024 else ot.2
    let comp := payloadStart.drop 8
    let d1 := LZ4.decompress comp maxOut
    let d2 := if d1 = [] then LZ4.decompressFrame comp maxOut else d1
    let d3 := if d2 = [] then tryDecodeBV4Container comp else d2
    if d3 = [] then
      match tryBplistFallback comp with
      | some raw =>
        { header := header
          payloadHeader := { messageType := ot.1, auxiliaryLength := 0,
                             totalPayloadLength := raw.length % 2 ^ 32, flags := 0 }
          payload := raw }
      | none => { header := header, payloadHeader := ph }
    else
      match DTXMessage.parsePayloadSection d3 with
      | some (ph2, aux, payload) =>
        { header := header, payloadHeader := ph2, auxiliary := aux, payload := payload }
      | none =>
        match tryBplistFallback d3 with
        | some raw =>
          { header := header
            payloadHeader := { messageType := ot.1, auxiliaryLength := 0,
                               totalPayloadLength := raw.length % 2 ^ 32, flags := 0 }
            payload := raw }
        | none =>
          let auxLen := ph.auxiliaryLength
          let aux := if auxLen > 0 ∧ auxLen ≤ d3.length then d3.take auxLen else []
          let payload := if d3.length > auxLen then d3.drop auxLen else []
          { header := header,
            payloadHeader := { ph with messageType := ot.1 },
            auxiliary := aux, payload := payload }

/-- DTXMessage::Decode: an empty body is an Ack or header-only message;
a body shorter than the payload header is kept header-only; an
LZ4Compressed payload goes through the decompression branch; anything
else is parsed as a payload section, with the read payload header kept
even when the section fails validation. -/
def DTXMessage.decode (header : DTXMessageHeader) (data : List Nat) : DTXMsg :=
  if data.length = 0 then { header := header }
  else if data.length < DTXProtocol.PayloadHeaderLength then { header := header }
  else
    let ph : DTXPayloadHeader := {
      messageType := readLE32 data
      auxiliaryLength := readLE32 (data.drop 4)
      totalPayloadLength := readLE32 (data.drop 8)
      flags := readLE32 (data.drop 12) }
    if ph.messageType = 0x0707 then DTXMessage.decodeLZ4 header ph data
    else
      (DTXMessage.parsePayloadSection data).elim
        { header := header, payloadHeader := ph }
        (fun r => { header := header, payloadHeader := r.1, auxiliary := r.2.1,
                    payload := r.2.2 })

/-- The single-frame round trip the receive path performs on a sent
message: ParseHeader on the encoded bytes, then Decode on the body that
follows the 32-byte frame header. -/
def DTXMessage.roundtrip (m : DTXMsg) : Option DTXMsg :=
  (DTXMessage.parseHeader (DTXMessage.encode m)).elim none
    (fun h => some (DTXMessage.decode h
      ((DTXMessage.encode m).drop DTXProtocol.HeaderLength)))

/-!
Helper facts about the byte layout of an encoded frame.
-/

theorem frame_drop8 (a b : Nat) (r : List Nat) :
    (writeBE32 a ++ (writeLE32 b ++ r)).drop 8 = r := rfl

theorem frame_drop10 (a b c : Nat) (r : List Nat) :
    (writeBE32 a ++ (writeLE32 b ++ (writeLE16 c ++ r))).drop 10 = r := rfl

theorem frame_drop12 (a b c d : Nat) (r : List Nat) :
    (writeBE32 a ++ (writeLE32 b ++ (writeLE16 c ++ (writeLE16 d ++ r)))).drop 12 = r := rfl

theorem frame_drop16 (a b c d e : Nat) (r : List Nat) :
    (writeBE32 a ++ (writeLE32 b ++ (writeLE16 c ++ (writeLE16 d ++
      (writeLE32 e ++ r))))).drop 16 = r := rfl

theorem frame_drop20 (a b c d e f : Nat) (r : List Nat) :
    (writeBE32 a ++ (writeLE32 b ++ (writeLE16 c ++ (writeLE16 d ++
      (writeLE32 e ++ (writeLE32 f ++ r)))))).drop 20 = r := rfl

theorem frame_drop24 (a b c d e f g : Nat) (r : List Nat) :
    (writeBE32 a ++ (writeLE32 b ++ (writeLE16 c ++ (writeLE16 d ++
      (writeLE32 e ++ (writeLE32 f ++ (writeLE32 g ++ r))))))).drop 24 = r := rfl

theorem frame_drop28 (a b c d e f g h : Nat) (r : List Nat) :
    (writeBE32 a ++ (writeLE32 b ++ (writeLE16 c ++ (writeLE16 d ++
      (writeLE32 e ++ (writeLE32 f ++ (writeLE32 g ++ (writeLE32 h ++ r)))))))).drop 28 = r := rfl

theorem ph_drop8 (a b : Nat) (r : List Nat) :
    (writeLE32 a ++ (writeLE32 b ++ r)).drop 8 = r := rfl

theorem ph_drop12 (a b c : Nat) (r : List Nat) :
    (writeLE32 a ++ (writeLE32 b ++ (writeLE32 c ++ r))).drop 12 = r := rfl

theorem ph_drop16 (a b c d : Nat) (r : List Nat) :
    (writeLE32 a ++ (writeLE32 b ++ (writeLE32 c ++ (writeLE32 d ++ r)))).drop 16 = r := rfl

theorem readLE32_writeLE32_nil (v : Nat) : readLE32 (writeLE32 v) = v % 2 ^ 32 := by
  have h := readLE32_writeLE32 v []
  rwa [List.append_nil] at h

theorem ph_drop32 (a b c d x y : Nat) (ax r : List Nat) :
    (writeLE32 a ++ (writeLE32 b ++ (writeLE32 c ++ (writeLE32 d ++
      ((writeLE64 x ++ (writeLE64 y ++ ax)) ++ r))))).drop 32 = ax ++ r := rfl

theorem readLE32_writeBE32 (v : Nat) (rest : List Nat) :
    readLE32 (writeBE32 v ++ rest) =
      v / 2 ^ 24 % 256 + 2 ^ 8 * (v / 2 ^ 16 % 256) + 2 ^ 16 * (v / 2 ^ 8 % 256) +
        2 ^ 24 * (v % 256) := by
  simp only [readLE32, writeBE32, List.cons_append, List.nil_append, List.getD_cons_zero,
    List.getD_cons_succ]

/-- The body that follows the 32-byte frame header of an encoded message
is exactly its payload section. -/
theorem encode_drop32 (m : DTXMsg) :
    (DTXMessage.encode m).drop 32 = DTXMessage.payloadSection m := rfl

/-- The length of an encoded frame. -/
theorem encode_length (m : DTXMsg) :
    (DTXMessage.encode m).length = 32 + (DTXMessage.payloadSection m).length := by
  show (writeBE32 _ ++ (writeLE32 _ ++ (writeLE16 _ ++ (writeLE16 _ ++
    (writeLE32 _ ++ (writeLE32 _ ++ (writeLE32 _ ++ (writeLE32 _ ++
      (writeLE32 _ ++ DTXMessage.payloadSection m))))))))).length = _
  simp only [List.length_append, length_writeBE32, length_writeLE32, length_writeLE16]
  omega

/-- Parsing the frame header of an encoded message recovers the magic,
the fixed header fields, the payload section length and the four routing
words (each reduced modulo 2^32 as written on the wire). -/
theorem parseHeader_encode (m : DTXMsg) :
    DTXMessage.parseHeader (DTXMessage.encode m) =
      some { magic := DTXProtocol.Magic
             headerLength := 32
             fragmentIndex := 0
             fragmentCount := 1
             messageLength := (DTXMessage.payloadSection m).length % 2 ^ 32
             identifier := m.header.identifier % 2 ^ 32
             conversationIndex := m.header.conversationIndex % 2 ^ 32
             channelCode := m.header.channelCode % 2 ^ 32
             expectsReply := m.header.expectsReply % 2 ^ 32 } := by
  have henc : DTXMessage.encode m =
      writeBE32 DTXProtocol.Magic ++ (writeLE32 DTXProtocol.HeaderLength ++ (writeLE16 0 ++
        (writeLE16 1 ++ (writeLE32 (DTXMessage.payloadSection m).length ++
          (writeLE32 m.header.identifier ++ (writeLE32 m.header.conversationIndex ++
            (writeLE32 m.header.channelCode ++ (writeLE32 m.header.expectsReply ++
              DTXMessage.payloadSection m)))))))) := rfl
  have hm1 : readLE32 (DTXMessage.encode m) = 0x1F3D5B79 := by
    rw [henc, readLE32_writeBE32]
    norm_num [DTXProtocol.Magic]
  have hm2 : readBE32 (DTXMessage.encode m) = DTXProtocol.Magic := by
    rw [henc, readBE32_writeBE32]
    norm_num [DTXProtocol.Magic]
  rw [DTXMessage.parseHeader]
  rw [if_neg, if_neg]
  · rw [hm1, hm2, if_pos (by decide)]
    rw [henc]
    simp only [drop_writeBE32_append, frame_drop8, frame_drop10, frame_drop12, frame_drop16,
      frame_drop20, frame_drop24, frame_drop28, readLE32_writeLE32, readLE16_writeLE16]
    norm_num [DTXProtocol.HeaderLength]
  · rw [hm2]
    simp
  · rw [encode_length]
    show ¬ (32 + (DTXMessage.payloadSection m).length < 32)
    omega

/-- The message-length field (bytes 12..15) of an encoded frame carries
the payload-section length. -/
theorem encode_messageLength_read (m : DTXMsg) :
    readLE32 ((DTXMessage.encode m).drop 12) = (DTXMessage.payloadSection m).length % 2 ^ 32 := by
  have henc : DTXMessage.encode m =
      writeBE32 DTXProtocol.Magic ++ (writeLE32 DTXProtocol.HeaderLength ++ (writeLE16 0 ++
        (writeLE16 1 ++ (writeLE32 (DTXMessage.payloadSection m).length ++
          (writeLE32 m.header.identifier ++ (writeLE32 m.header.conversationIndex ++
            (writeLE32 m.header.channelCode ++ (writeLE32 m.header.expectsReply ++
              DTXMessage.payloadSection m)))))))) := rfl
  rw [henc, frame_drop12, readLE32_writeLE32]

/-- C6: a message with empty payload, no auxiliary bytes and a type other
than Ack encodes to a bare 32-byte frame whose message-length field is 0
and which carries no payload section; an Ack (type 0) message with empty
payload and auxiliary encodes to 48 bytes whose message-length field is
16 and whose body is exactly a 16-byte payload header carrying type 0,
zero auxiliary length, zero total payload length and the flags word. -/
theorem C6_empty_message_encoding (m : DTXMsg) (hp : m.payload = [])
    (ha : m.auxiliary = []) :
    (m.payloadHeader.messageType ≠ 0 →
      (DTXMessage.encode m).length = 32 ∧
      readLE32 ((DTXMessage.encode m).drop 12) = 0 ∧
      (DTXMessage.encode m).drop 32 = []) ∧
    (m.payloadHeader.messageType = 0 →
      (DTXMessage.encode m).length = 48 ∧
      readLE32 ((DTXMessage.encode m).drop 12) = 16 ∧
      (DTXMessage.encode m).drop 32 =
        writeLE32 0 ++ writeLE32 0 ++ writeLE32 0 ++ writeLE32 m.payloadHeader.flags) := by
  have hL := encode_length m
  have hR := encode_messageLength_read m
  have hD := encode_drop32 m
  constructor
  · intro ht
    have hps : DTXMessage.payloadSection m = [] := by
      rw [DTXMessage.payloadSection]
      simp [hp, ha, ht]
    rw [hps] at hL hR hD
    refine ⟨by rw [hL]; rfl, by rw [hR]; rfl, hD⟩
  · intro ht
    have hps : DTXMessage.payloadSection m =
        writeLE32 0 ++ writeLE32 0 ++ writeLE32 0 ++ writeLE32 m.payloadHeader.flags := by
      rw [DTXMessage.payloadSection]
      simp [hp, ha, ht]
    rw [hps] at hL hR hD
    refine ⟨?_, ?_, hD⟩
    · rw [hL]; simp [List.length_append]
    · rw [hR]; simp [List.length_append]

/-- Witness for C6 at concrete inputs: an empty MethodInvocation message
encodes to 32 bytes, an empty Ack to 48 bytes. -/
theorem C6_empty_message_encoding_witness :
    (DTXMessage.encode { payloadHeader := { messageType := 2 } }).length = 32 ∧
    (DTXMessage.encode { payloadHeader := { messageType := 0 } }).length = 48 := by
  constructor
  · exact ((C6_empty_message_encoding { payloadHeader := { messageType := 2 } } rfl rfl).1
      (by decide)).1
  · exact ((C6_empty_message_encoding { payloadHeader := { messageType := 0 } } rfl rfl).2
      rfl).1

/-- C9: in the LZ4Compressed branch of DTXMessage::Decode the 8-byte
inline header is read little-endian, and the big-endian interpretation
of both fields is substituted exactly when the little-endian
decompressed size is zero or above 128 MiB. -/
theorem C9_lz4_inline_header_endianness (p : List Nat) :
    (readLE32 (p.drop 4) = 0 ∨ readLE32 (p.drop 4) > 128 * 1024 * 1024 →
      DTXMessage.lz4InlineHeader p = (readBE32 p, readBE32 (p.drop 4))) ∧
    (readLE32 (p.drop 4) ≠ 0 → readLE32 (p.drop 4) ≤ 128 * 1024 * 1024 →
      DTXMessage.lz4InlineHeader p = (readLE32 p, readLE32 (p.drop 4))) := by
  constructor
  · intro h
    rw [DTXMessage.lz4InlineHeader]
    simp only [if_pos h]
  · intro h1 h2
    rw [DTXMessage.lz4InlineHeader]
    rw [if_neg]
    omega

/-- Witness for C9 at concrete inputs: a little-endian size of 0 selects
the big-endian reading, a little-endian size of 2 keeps the
little-endian reading. -/
theorem C9_lz4_inline_header_endianness_witness :
    DTXMessage.lz4InlineHeader [1, 0, 0, 0, 0, 0, 0, 0] = (16777216, 0) ∧
    DTXMessage.lz4InlineHeader [1, 0, 0, 0, 2, 0, 0, 0] = (1, 2) := by
  constructor
  · exact ((C9_lz4_inline_header_endianness [1, 0, 0, 0, 0, 0, 0, 0]).1
      (by decide)).trans (by decide)
  · exact ((C9_lz4_inline_header_endianness [1, 0, 0, 0, 2, 0, 0, 0]).2
      (by decide) (by decide)).trans (by decide)

/-- C1 counterexample: an empty MethodInvocation message (type 2, no
payload, no auxiliary) does not survive the encode/decode round trip —
Encode omits the payload section, so Decode returns a message whose
payload-header type is 0 instead of 2. -/
theorem C1_roundtrip_cex :
    DTXMessage.roundtrip { payloadHeader := { messageType := 2 } } ≠
      some { payloadHeader := { messageType := 2 } } := by decide

/-- Decoding the payload section that Encode builds restores the payload
header, the auxiliary bytes and the payload bytes, whenever the stored
length fields are the ones Encode writes, type and flags fit in 32 bits,
and the message either has content with a type that is neither 0 nor the
LZ4 marker, or is an empty Ack. -/
theorem decode_payloadSection (hd : DTXMessageHeader) (t fl : Nat) (ax pl : List Nat)
    (ht32 : t < 2 ^ 32) (hfl : fl < 2 ^ 32)
    (hsize : (if ax.length > 0 then ax.length + 16 else 0) + pl.length + 32 < 2 ^ 32)
    (hkind : (t ≠ 0 ∧ t ≠ 0x0707 ∧ (ax.length > 0 ∨ pl.length > 0)) ∨
      (t = 0 ∧ ax = [] ∧ pl = [])) :
    DTXMessage.decode hd (DTXMessage.payloadSection
      { payloadHeader := { messageType := t,
                           auxiliaryLength := if ax.length > 0 then ax.length + 16 else 0,
                           totalPayloadLength :=
                             (if ax.length > 0 then ax.length + 16 else 0) + pl.length,
                           flags := fl },
        payload := pl, auxiliary := ax }) =
      { header := hd,
        payloadHeader := { messageType := t,
                           auxiliaryLength := if ax.length > 0 then ax.length + 16 else 0,
                           totalPayloadLength :=
                             (if ax.length > 0 then ax.length + 16 else 0) + pl.length,
                           flags := fl },
        payload := pl, auxiliary := ax } := by
  have ht' : t % 2 ^ 32 = t := Nat.mod_eq_of_lt ht32
  have hfl' : fl % 2 ^ 32 = fl := Nat.mod_eq_of_lt hfl
  rcases hkind with ⟨ht0, ht7, hne⟩ | ⟨ht0, haxe, hple⟩
  · by_cases hax : ax.length > 0
    · -- auxiliary bytes present
      have hs : ax.length + 16 + pl.length + 32 < 2 ^ 32 := by
        rw [if_pos hax] at hsize; omega
      have hA32 : (ax.length + 16) % 2 ^ 32 = ax.length + 16 := Nat.mod_eq_of_lt (by omega)
      have hT32 : (ax.length + 16 + pl.length) % 2 ^ 32 = ax.length + 16 + pl.length :=
        Nat.mod_eq_of_lt (by omega)
      rw [if_pos hax]
      have hps : DTXMessage.payloadSection
          { payloadHeader := { messageType := t, auxiliaryLength := ax.length + 16,
                               totalPayloadLength := ax.length + 16 + pl.length, flags := fl },
            payload := pl, auxiliary := ax } =
          writeLE32 t ++ (writeLE32 (ax.length + 16) ++
            (writeLE32 (ax.length + 16 + pl.length) ++ (writeLE32 fl ++
              ((writeLE64 0x1F0 ++ (writeLE64 ax.length ++ ax)) ++ pl)))) := by
        simp only [DTXMessage.payloadSection, DTXProtocol.PayloadHeaderLength]
        simp only [if_pos hax]
        split
        · rfl
        · next h => exact absurd (Or.inl (by omega)) h
      rw [hps]
      have hpps : DTXMessage.parsePayloadSection
          (writeLE32 t ++ (writeLE32 (ax.length + 16) ++
            (writeLE32 (ax.length + 16 + pl.length) ++ (writeLE32 fl ++
              ((writeLE64 0x1F0 ++ (writeLE64 ax.length ++ ax)) ++ pl))))) =
          some ({ messageType := t, auxiliaryLength := ax.length + 16,
                  totalPayloadLength := ax.length + 16 + pl.length, flags := fl }, ax, pl) := by
        simp only [DTXMessage.parsePayloadSection, DTXProtocol.PayloadHeaderLength,
          List.length_append, length_writeLE32, length_writeLE64,
          drop_writeLE32_append, ph_drop8, ph_drop12, readLE32_writeLE32,
          ht', hfl', hA32, hT32]
        split
        · next h => exact absurd h (by omega)
        split
        · next h => exact absurd h (by omega)
        split
        · next h => exact absurd h (by omega)
        split
        · next h =>
            rcases h with h | h
            · exact absurd h ht0
            · exact absurd h ht7
        refine congrArg some ?_
        simp only [Prod.mk.injEq]
        refine ⟨trivial, ?_, ?_⟩
        · split
          · rw [show ax.length + 16 - 16 = ax.length from by omega, ph_drop32,
              List.take_left' rfl]
          · next h => exact absurd ⟨by omega, by omega, by omega⟩ h
        · split
          · next h =>
              rw [show 16 + (ax.length + 16) = 32 + ax.length from by omega,
                ← List.drop_drop, ph_drop32, List.drop_left' rfl,
                List.take_of_length_le (by omega)]
          · next h =>
              exact (List.length_eq_zero.mp (by omega)).symm
      simp only [DTXMessage.decode, DTXProtocol.PayloadHeaderLength,
        List.length_append, length_writeLE32, length_writeLE64,
        drop_writeLE32_append, ph_drop8, ph_drop12, readLE32_writeLE32,
        ht', hfl', hA32, hT32, hpps, Option.elim_some]
      split
      · next h => exact absurd h (by omega)
      split
      · next h => exact absurd h (by omega)
      rfl
    · -- no auxiliary bytes: the payload must be nonempty
      have hpl : pl.length > 0 := by
        rcases hne with h | h
        · exact absurd h hax
        · exact h
      have haxe : ax = [] := List.length_eq_zero.mp (by omega)
      subst haxe
      have hs : pl.length + 32 < 2 ^ 32 := by
        rw [if_neg hax] at hsize; omega
      have hT32 : pl.length % 2 ^ 32 = pl.length := Nat.mod_eq_of_lt (by omega)
      rw [if_neg hax]
      simp only [Nat.zero_add]
      have hps : DTXMessage.payloadSection
          { payloadHeader := { messageType := t, auxiliaryLength := 0,
                               totalPayloadLength := pl.length, flags := fl },
            payload := pl, auxiliary := [] } =
          writeLE32 t ++ (writeLE32 0 ++
            (writeLE32 pl.length ++ (writeLE32 fl ++ pl))) := by
        simp only [DTXMessage.payloadSection, DTXProtocol.PayloadHeaderLength,
          List.length_nil]
        rw [if_neg (Nat.lt_irrefl 0), if_neg (Nat.lt_irrefl 0)]
        simp only [Nat.zero_add]
        split
        · rw [List.nil_append]
          rfl
        · next h => exact absurd (Or.inl (by omega)) h
      rw [hps]
      have hpps : DTXMessage.parsePayloadSection
          (writeLE32 t ++ (writeLE32 0 ++
            (writeLE32 pl.length ++ (writeLE32 fl ++ pl)))) =
          some ({ messageType := t, auxiliaryLength := 0,
                  totalPayloadLength := pl.length, flags := fl }, [], pl) := by
        simp only [DTXMessage.parsePayloadSection, DTXProtocol.PayloadHeaderLength,
          List.length_append, length_writeLE32,
          drop_writeLE32_append, ph_drop8, ph_drop12, readLE32_writeLE32,
          ht', hfl', hT32, Nat.zero_mod, Nat.zero_add, Nat.add_zero]
        split
        · next h => exact absurd h (by omega)
        split
        · next h => exact absurd h (by omega)
        split
        · next h => exact absurd h (by omega)
        split
        · next h =>
            rcases h with h | h
            · exact absurd h ht0
            · exact absurd h ht7
        refine congrArg some ?_
        simp only [Prod.mk.injEq]
        refine ⟨trivial, ?_, ?_⟩
        · split
          · next h => exact absurd h.1 (by omega)
          · rfl
        · split
          · next h =>
              rw [ph_drop16, List.take_of_length_le (by omega)]
          · next h => exact absurd h (by omega)
      simp only [DTXMessage.decode, DTXProtocol.PayloadHeaderLength,
        List.length_append, length_writeLE32,
        drop_writeLE32_append, ph_drop8, ph_drop12, readLE32_writeLE32,
        ht', hfl', hT32, Nat.zero_mod, Nat.zero_add, Nat.add_zero, hpps, Option.elim_some]
      split
      · next h => exact absurd h (by omega)
      split
      · next h => exact absurd h (by omega)
      rfl
  · -- empty Ack
    subst ht0 haxe hple
    simp only [List.length_nil] at hsize ⊢
    rw [if_neg (Nat.lt_irrefl 0)]
    simp only [Nat.add_zero]
    have hps : DTXMessage.payloadSection
        { payloadHeader := { messageType := 0, auxiliaryLength := 0,
                             totalPayloadLength := 0, flags := fl },
          payload := [], auxiliary := [] } =
        writeLE32 0 ++ (writeLE32 0 ++ (writeLE32 0 ++ writeLE32 fl)) := by
      simp [DTXMessage.payloadSection]
    rw [hps]
    have hpps : DTXMessage.parsePayloadSection
        (writeLE32 0 ++ (writeLE32 0 ++ (writeLE32 0 ++ writeLE32 fl))) = none := by
      simp [DTXMessage.parsePayloadSection, ph_drop8, ph_drop12, readLE32_writeLE32_nil]
    simp [DTXMessage.decode, DTXProtocol.PayloadHeaderLength, hpps, ph_drop8, ph_drop12,
      readLE32_writeLE32_nil, Nat.mod_eq_of_lt (show fl < 4294967296 from hfl)]

/-- Length of the payload section: 16-byte payload header plus auxiliary
sub-header and bytes plus payload bytes when present, 0 otherwise. -/
theorem payloadSection_length (m : DTXMsg) :
    (DTXMessage.payloadSection m).length =
      if (if m.auxiliary.length > 0 then m.auxiliary.length + 16 else 0) + m.payload.length > 0
          ∨ m.payloadHeader.messageType = 0 then
        16 + ((if m.auxiliary.length > 0 then m.auxiliary.length + 16 else 0) + m.payload.length)
      else 0 := by
  simp only [DTXMessage.payloadSection, DTXProtocol.PayloadHeaderLength]
  split
  · split
    · simp only [List.length_append, length_writeLE32, length_writeLE64]
      omega
    · rfl
  · split
    · simp only [List.length_append, length_writeLE32, List.length_nil]
    · rfl

/-- C1 (amended): a message survives the single-frame encode/decode round
trip whenever its frame-header fields are the ones Encode assumes (magic,
header length 32, fragment index 0, fragment count 1, message length equal
to the payload-section length, routing words below 2^32), its
payload-header length fields are consistent with its buffers, its type and
flags fit in 32 bits, and it either has content with a type that is
neither 0 nor the LZ4 marker 0x0707, or is an empty Ack. -/
theorem C1_single_frame_roundtrip (m : DTXMsg)
    (hmagic : m.header.magic = DTXProtocol.Magic)
    (hhl : m.header.headerLength = 32)
    (hfi : m.header.fragmentIndex = 0)
    (hfc : m.header.fragmentCount = 1)
    (hml : m.header.messageLength = (DTXMessage.payloadSection m).length)
    (hid : m.header.identifier < 2 ^ 32)
    (hci : m.header.conversationIndex < 2 ^ 32)
    (hcc : m.header.channelCode < 2 ^ 32)
    (her : m.header.expectsReply < 2 ^ 32)
    (ht32 : m.payloadHeader.messageType < 2 ^ 32)
    (hfl : m.payloadHeader.flags < 2 ^ 32)
    (haux : m.payloadHeader.auxiliaryLength =
      if m.auxiliary.length > 0 then m.auxiliary.length + 16 else 0)
    (htot : m.payloadHeader.totalPayloadLength =
      m.payloadHeader.auxiliaryLength + m.payload.length)
    (hsize : m.payloadHeader.totalPayloadLength + 32 < 2 ^ 32)
    (hkind : (m.payloadHeader.messageType ≠ 0 ∧ m.payloadHeader.messageType ≠ 0x0707 ∧
        (m.auxiliary.length > 0 ∨ m.payload.length > 0)) ∨
      (m.payloadHeader.messageType = 0 ∧ m.auxiliary = [] ∧ m.payload = [])) :
    DTXMessage.roundtrip m = some m := by
  have hps32 : (DTXMessage.payloadSection m).length < 2 ^ 32 := by
    rw [payloadSection_length, ← haux, ← htot]
    split
    · omega
    · omega
  have hs' : (if m.auxiliary.length > 0 then m.auxiliary.length + 16 else 0) +
      m.payload.length + 32 < 2 ^ 32 := by
    rw [← haux]
    omega
  simp only [DTXMessage.roundtrip, DTXProtocol.HeaderLength, parseHeader_encode,
    Option.elim_some, encode_drop32]
  rw [Nat.mod_eq_of_lt hid, Nat.mod_eq_of_lt hci, Nat.mod_eq_of_lt hcc, Nat.mod_eq_of_lt her,
    Nat.mod_eq_of_lt hps32]
  rw [← hmagic, ← hhl, ← hfi, ← hfc, ← hml]
  have hsec : DTXMessage.payloadSection m = DTXMessage.payloadSection
      { payloadHeader := { messageType := m.payloadHeader.messageType,
                           auxiliaryLength :=
                             if m.auxiliary.length > 0 then m.auxiliary.length + 16 else 0,
                           totalPayloadLength :=
                             (if m.auxiliary.length > 0 then m.auxiliary.length + 16 else 0) +
                               m.payload.length,
                           flags := m.payloadHeader.flags },
        payload := m.payload, auxiliary := m.auxiliary } := rfl
  rw [hsec]
  rw [decode_payloadSection _ m.payloadHeader.messageType m.payloadHeader.flags
    m.auxiliary m.payload ht32 hfl hs' hkind]
  rw [← haux, ← htot]

/-- Witness for C1 at a concrete input: a MethodInvocation message with
one auxiliary byte and a three-byte payload, with consistent length
fields, survives the round trip. -/
theorem C1_single_frame_roundtrip_witness :
    DTXMessage.roundtrip
      { header := { messageLength := 36 },
        payloadHeader := { messageType := 2, auxiliaryLength := 17,
                           totalPayloadLength := 20, flags := 3 },
        payload := [9, 8, 7], auxiliary := [1] } =
    some
      { header := { messageLength := 36 },
        payloadHeader := { messageType := 2, auxiliaryLength := 17,
                           totalPayloadLength := 20, flags := 3 },
        payload := [9, 8, 7], auxiliary := [1] } :=
  C1_single_frame_roundtrip _ rfl rfl rfl rfl (by decide) (by decide) (by decide)
    (by decide) (by decide) (by decide) (by decide) (by decide) (by decide) (by decide)
    (by decide)

/-!
Channel identifier management (src/src/dtx/dtx_channel.cpp) and the
dispatch path of DTXConnection::DispatchMessage
(src/src/dtx/dtx_connection.cpp).
-/

/-- DTXChannel::NextIdentifier: fetch_add(1) on the uint32 counter,
returning the previous value and the new counter. -/
def DTXChannel.NextIdentifier (c : Nat) : Nat × Nat :=
  (c, (c + 1) % 2 ^ 32)

/-- DTXChannel::SyncIdentifier: store receivedId + 1 (uint32 arithmetic)
when receivedId is at least the current counter, else leave it. -/
def DTXChannel.SyncIdentifier (receivedId c : Nat) : Nat :=
  if receivedId ≥ c then (receivedId + 1) % 2 ^ 32 else c

/-- One operation on a channel's identifier counter. -/
inductive ChanOp
  | next
  | sync (receivedId : Nat)
deriving DecidableEq

/-- Effect of one operation on the counter. -/
def ChanOp.apply : ChanOp → Nat → Nat
  | .next, c => (DTXChannel.NextIdentifier c).2
  | .sync r, c => DTXChannel.SyncIdentifier r c

/-- A sequence of NextIdentifier and SyncIdentifier calls. -/
def DTXChannel.runOps : List ChanOp → Nat → Nat
  | [], c => c
  | op :: ops, c => DTXChannel.runOps ops (op.apply c)

/-- Each operation of the sequence leaves the uint32 counter shy of the
wraparound. -/
def opsBounded : List ChanOp → Nat → Bool
  | [], _ => true
  | .next :: ops, c => decide (c + 1 < 2 ^ 32) && opsBounded ops (ChanOp.next.apply c)
  | .sync r :: ops, c =>
    decide (r + 1 < 2 ^ 32) && opsBounded ops ((ChanOp.sync r).apply c)

theorem runOps_mono (ops : List ChanOp) (c : Nat) (h : opsBounded ops c = true) :
    c ≤ DTXChannel.runOps ops c := by
  induction ops generalizing c with
  | nil => exact Nat.le_refl c
  | cons op ops ih =>
    rcases op with _ | r
    · rw [opsBounded, Bool.and_eq_true, decide_eq_true_eq] at h
      have hstep : c ≤ ChanOp.next.apply c := by
        simp only [ChanOp.apply, DTXChannel.NextIdentifier]
        rw [Nat.mod_eq_of_lt h.1]
        omega
      exact hstep.trans (ih _ h.2)
    · rw [opsBounded, Bool.and_eq_true, decide_eq_true_eq] at h
      have hstep : c ≤ (ChanOp.sync r).apply c := by
        simp only [ChanOp.apply, DTXChannel.SyncIdentifier]
        split
        · next hge => rw [Nat.mod_eq_of_lt h.1]; omega
        · exact Nat.le_refl c
      exact hstep.trans (ih _ h.2)

/-- C4 counterexample: at receivedId = 2^32 - 1 the uint32 increment
wraps, the counter becomes 0 instead of max(current, receivedId + 1),
and it decreases. -/
theorem C4_sync_identifier_cex :
    DTXChannel.SyncIdentifier (2 ^ 32 - 1) 5 = 0 ∧
    DTXChannel.SyncIdentifier (2 ^ 32 - 1) 5 ≠ max 5 (2 ^ 32 - 1 + 1) ∧
    DTXChannel.SyncIdentifier (2 ^ 32 - 1) 5 < 5 := by decide

/-- C4 (amended): as long as receivedId + 1 does not overflow uint32,
SyncIdentifier sets the counter to max(current, receivedId + 1), the
identifier allocated right after a sync is at least receivedId + 1, and
the counter never decreases under any interleaving of NextIdentifier and
SyncIdentifier calls that stays below the wraparound. -/
theorem C4_sync_identifier_max (r c : Nat) (ops : List ChanOp) (hr : r + 1 < 2 ^ 32)
    (hops : opsBounded ops c = true) :
    DTXChannel.SyncIdentifier r c = max c (r + 1) ∧
    r + 1 ≤ (DTXChannel.NextIdentifier (DTXChannel.SyncIdentifier r c)).1 ∧
    c ≤ DTXChannel.runOps ops c := by
  have hmax : DTXChannel.SyncIdentifier r c = max c (r + 1) := by
    rw [DTXChannel.SyncIdentifier]
    split
    · next hge => rw [Nat.mod_eq_of_lt hr]; omega
    · next hlt => omega
  refine ⟨hmax, ?_, runOps_mono ops c hops⟩
  rw [DTXChannel.NextIdentifier, hmax]
  omega

/-- Witness for C4 at the spec's example: a fresh channel (counter 1)
that receives identifier 1000 allocates 1001 next; a bounded op sequence
never decreases the counter. -/
theorem C4_sync_identifier_max_witness :
    DTXChannel.SyncIdentifier 1000 1 = max 1 1001 ∧
    1001 ≤ (DTXChannel.NextIdentifier (DTXChannel.SyncIdentifier 1000 1)).1 ∧
    1 ≤ DTXChannel.runOps [ChanOp.next, ChanOp.sync 5, ChanOp.next] 1 :=
  C4_sync_identifier_max 1000 1 [ChanOp.next, ChanOp.sync 5, ChanOp.next]
    (by decide) (by decide)

/-- DTXMessage::CreateAck: an Ack (type 0) carrying the received
identifier and channel code, the received conversation index plus one
(uint32), and expects-reply false. -/
def DTXMessage.CreateAck (identifier channelCode conversationIndex : Nat) : DTXMsg :=
  { header := { identifier := identifier, channelCode := channelCode,
                conversationIndex := (conversationIndex + 1) % 2 ^ 32,
                expectsReply := 0 },
    payloadHeader := { messageType := 0 } }

/-- The externally visible actions DTXConnection::DispatchMessage takes,
in program order. -/
inductive DispatchEvent
  | syncId (channelCode : Int) (identifier : Nat)
  | ack (m : DTXMsg)
  | handshakeSignal
  | toChannel (channelCode : Int)
  | toGlobalHandler (channelCode : Int)
deriving DecidableEq

/-- Event classifiers for the dispatch trace. -/
def DispatchEvent.isAckEvent : DispatchEvent → Bool
  | .ack _ => true
  | _ => false

/-- Events that hand the received message to channel handlers or user
code (the channel dispatch and the global handler). -/
def DispatchEvent.isUserDispatch : DispatchEvent → Bool
  | .toChannel _ => true
  | .toGlobalHandler _ => true
  | _ => false

/-- DTXConnection::DispatchMessage as the trace of its actions: the
identifier sync on the addressed channel for conversation index 0, then
the Ack for a non-Ack message with conversation index 0 that expects a
reply, then either the handshake signal (capabilities selector on
channel 0, conversation 0 — such a message is not dispatched further) or
the dispatch to the channel found under the int32 channel code, falling
back to the global handler when set. -/
def DTXConnection.dispatchTrace (identifier conversationIndex channelCode expectsReply
    msgType : Nat) (selector : String) (channels : List Int)
    (hasGlobalHandler : Bool) : List DispatchEvent :=
  (if conversationIndex = 0 ∧ toInt32 (channelCode % 2 ^ 32) ∈ channels then
    [DispatchEvent.syncId (toInt32 (channelCode % 2 ^ 32)) identifier] else []) ++
  (if msgType ≠ 0 ∧ conversationIndex = 0 ∧ expectsReply ≠ 0 then
    [DispatchEvent.ack (DTXMessage.CreateAck identifier channelCode conversationIndex)]
   else []) ++
  (if selector = "_notifyOfPublishedCapabilities:" ∧ channelCode = 0 ∧ conversationIndex = 0
   then [DispatchEvent.handshakeSignal]
   else if toInt32 (channelCode % 2 ^ 32) ∈ channels then
     [DispatchEvent.toChannel (toInt32 (channelCode % 2 ^ 32))]
   else if hasGlobalHandler then
     [DispatchEvent.toGlobalHandler (toInt32 (channelCode % 2 ^ 32))]
   else [])

/-- C3: a received message with conversation index 0, a type other than
Ack, and expects-reply set produces exactly one Ack — carrying the
received identifier and channel code, conversation index 1 (received
plus one) and expects-reply false — and that Ack precedes every dispatch
to channel handlers or user code in the trace; a message failing any of
the three conditions produces no Ack. -/
theorem C3_ack_emission (identifier channelCode expectsReply msgType : Nat)
    (selector : String) (channels : List Int) (hasGlobalHandler : Bool) :
    (msgType ≠ 0 → expectsReply ≠ 0 →
      ∃ pre post,
        DTXConnection.dispatchTrace identifier 0 channelCode expectsReply msgType selector
            channels hasGlobalHandler =
          pre ++ DispatchEvent.ack
            { header := { identifier := identifier, conversationIndex := 1,
                          channelCode := channelCode, expectsReply := 0 },
              payloadHeader := { messageType := 0 } } :: post ∧
        (∀ e ∈ pre, e.isAckEvent = false ∧ e.isUserDispatch = false) ∧
        (∀ e ∈ post, e.isAckEvent = false)) ∧
    (∀ conversationIndex,
      ¬ (msgType ≠ 0 ∧ conversationIndex = 0 ∧ expectsReply ≠ 0) →
      (DTXConnection.dispatchTrace identifier conversationIndex channelCode expectsReply
          msgType selector channels hasGlobalHandler).filter
        DispatchEvent.isAckEvent = []) := by
  constructor
  · intro ht her
    refine ⟨(if (0 : Nat) = 0 ∧ toInt32 (channelCode % 2 ^ 32) ∈ channels then
        [DispatchEvent.syncId (toInt32 (channelCode % 2 ^ 32)) identifier] else []),
      (if selector = "_notifyOfPublishedCapabilities:" ∧ channelCode = 0 ∧ (0 : Nat) = 0
       then [DispatchEvent.handshakeSignal]
       else if toInt32 (channelCode % 2 ^ 32) ∈ channels then
         [DispatchEvent.toChannel (toInt32 (channelCode % 2 ^ 32))]
       else if hasGlobalHandler then
         [DispatchEvent.toGlobalHandler (toInt32 (channelCode % 2 ^ 32))]
       else []), ?_, ?_, ?_⟩
    · rw [DTXConnection.dispatchTrace,
        if_pos (show msgType ≠ 0 ∧ (0 : Nat) = 0 ∧ expectsReply ≠ 0 from ⟨ht, rfl, her⟩)]
      rw [show DTXMessage.CreateAck identifier channelCode 0 =
        { header := { identifier := identifier, conversationIndex := 1,
                      channelCode := channelCode, expectsReply := 0 },
          payloadHeader := { messageType := 0 } } from rfl]
      rw [List.append_assoc]
      rfl
    · intro e he
      split at he
      · rw [List.mem_singleton] at he
        subst he
        exact ⟨rfl, rfl⟩
      · exact absurd he (List.not_mem_nil e)
    · intro e he
      split at he
      · rw [List.mem_singleton] at he
        subst he
        rfl
      · split at he
        · rw [List.mem_singleton] at he
          subst he
          rfl
        · split at he
          · rw [List.mem_singleton] at he
            subst he
            rfl
          · exact absurd he (List.not_mem_nil e)
  · intro conversationIndex h
    simp only [DTXConnection.dispatchTrace, if_neg h, List.filter_append, List.filter_nil,
      List.nil_append, List.append_nil]
    refine List.append_eq_nil.mpr ⟨?_, ?_⟩
    · split
      · rfl
      · rfl
    · split
      · rfl
      · split
        · rfl
        · split
          · rfl
          · rfl

/-- Witness for C3 at concrete inputs: a MethodInvocation on channel 5
expecting a reply yields the Ack with conversation index 1 before any
dispatch; the same message at conversation index 3 yields no Ack. -/
theorem C3_ack_emission_witness :
    (∃ pre post,
        DTXConnection.dispatchTrace 7 0 5 1 2 "foo:" [5] true =
          pre ++ DispatchEvent.ack
            { header := { identifier := 7, conversationIndex := 1,
                          channelCode := 5, expectsReply := 0 },
              payloadHeader := { messageType := 0 } } :: post ∧
        (∀ e ∈ pre, e.isAckEvent = false ∧ e.isUserDispatch = false) ∧
        (∀ e ∈ post, e.isAckEvent = false)) ∧
    (DTXConnection.dispatchTrace 7 3 5 1 2 "foo:" [5] true).filter
        DispatchEvent.isAckEvent = [] :=
  ⟨(C3_ack_emission 7 5 1 2 "foo:" [5] true).1 (by decide) (by decide),
   (C3_ack_emission 7 5 1 2 "foo:" [5] true).2 3 (by decide)⟩

/-!
Fragment reassembly (src/src/dtx/dtx_fragment.cpp).  std::map is
modelled as an association list with strictly ascending keys and
insert-or-assign insertion.
-/

/-- Per-identifier reassembly state (FragmentState in dtx_fragment.h);
fragments is the std::map keyed by fragment index. -/
structure FragmentState where
  expectedCount : Nat := 0
  receivedCount : Nat := 0
  totalSize : Nat := 0
  fragments : List (Nat × List Nat) := []
deriving DecidableEq

/-- std::map insert-or-assign keeping keys strictly ascending. -/
def mapInsertNat (k : Nat) (v : List Nat) :
    List (Nat × List Nat) → List (Nat × List Nat)
  | [] => [(k, v)]
  | (k', v') :: rest =>
    if k < k' then (k, v) :: (k', v') :: rest
    else if k = k' then (k, v) :: rest
    else (k', v') :: mapInsertNat k v rest

/-- Lookup in the pending map (std::map find). -/
def pendingFind (ident : Nat) : List (Nat × FragmentState) → Option FragmentState
  | [] => none
  | (k, st) :: rest => if ident = k then some st else pendingFind ident rest

/-- Insert-or-assign in the pending map. -/
def pendingSet (ident : Nat) (st : FragmentState) :
    List (Nat × FragmentState) → List (Nat × FragmentState)
  | [] => [(ident, st)]
  | (k, st') :: rest =>
    if ident < k then (ident, st) :: (k, st') :: rest
    else if ident = k then (ident, st) :: rest
    else (k, st') :: pendingSet ident st rest

/-- std::map erase. -/
def pendingErase (ident : Nat) :
    List (Nat × FragmentState) → List (Nat × FragmentState)
  | [] => []
  | (k, st) :: rest =>
    if ident = k then rest else (k, st) :: pendingErase ident rest

/-- DTXFragmentDecoder::AddFragment: fragment 0 initialises the state
(header only, no bytes; a single-fragment message is complete at once);
a later fragment stores its bytes under its index and bumps the uint16
received count; the returned flag reports completion. -/
def DTXFragmentDecoder.AddFragment (pending : List (Nat × FragmentState))
    (identifier fragmentIndex fragmentCount : Nat) (data : List Nat) :
    List (Nat × FragmentState) × Bool :=
  let state := (pendingFind identifier pending).getD {}
  if fragmentIndex = 0 then
    let st1 := { state with expectedCount := fragmentCount, receivedCount := 1 }
    (pendingSet identifier st1 pending, decide (fragmentCount = 1))
  else
    let st1 := { state with
      fragments := mapInsertNat fragmentIndex data state.fragments,
      totalSize := (state.totalSize + data.length) % 2 ^ 64,
      receivedCount := (state.receivedCount + 1) % 2 ^ 16 }
    (pendingSet identifier st1 pending,
     decide (st1.receivedCount ≥ st1.expectedCount))

/-- DTXFragmentDecoder::GetAssembledData: concatenate the stored
fragment bodies in map (ascending index) order. -/
def DTXFragmentDecoder.GetAssembledData (pending : List (Nat × FragmentState))
    (identifier : Nat) : List Nat :=
  match pendingFind identifier pending with
  | none => []
  | some st => (st.fragments.map Prod.snd).flatten

/-- DTXFragmentDecoder::Remove. -/
def DTXFragmentDecoder.Remove (pending : List (Nat × FragmentState))
    (identifier : Nat) : List (Nat × FragmentState) :=
  pendingErase identifier pending

/-- Feeding a list of (index, bytes) fragments to AddFragment in arrival
order, keeping only the final pending map. -/
def DTXFragmentDecoder.addFragments (identifier fragmentCount : Nat)
    (arrivals : List (Nat × List Nat)) (pending : List (Nat × FragmentState)) :
    List (Nat × FragmentState) :=
  arrivals.foldl
    (fun p a => (DTXFragmentDecoder.AddFragment p identifier a.1 fragmentCount a.2).1)
    pending

theorem mapInsertNat_mem (k : Nat) (v : List Nat) (l : List (Nat × List Nat))
    (x : Nat × List Nat) (hx : x ∈ mapInsertNat k v l) : x = (k, v) ∨ x ∈ l := by
  induction l with
  | nil => simpa [mapInsertNat] using hx
  | cons p rest ih =>
    rcases p with ⟨k', v'⟩
    rw [mapInsertNat] at hx
    by_cases hlt : k < k'
    · rw [if_pos hlt] at hx
      rcases List.mem_cons.mp hx with h | h
      · exact Or.inl h
      · exact Or.inr h
    · by_cases heq : k = k'
      · rw [if_neg hlt, if_pos heq] at hx
        rcases List.mem_cons.mp hx with h | h
        · exact Or.inl h
        · exact Or.inr (List.mem_cons_of_mem _ h)
      · rw [if_neg hlt, if_neg heq] at hx
        rcases List.mem_cons.mp hx with h | h
        · exact Or.inr (h ▸ List.mem_cons_self _ _)
        · rcases ih h with h' | h'
          · exact Or.inl h'
          · exact Or.inr (List.mem_cons_of_mem _ h')

theorem mapInsertNat_keys (k : Nat) (v : List Nat) (l : List (Nat × List Nat))
    (x : Nat) (hx : x ∈ (mapInsertNat k v l).map Prod.fst) :
    x = k ∨ x ∈ l.map Prod.fst := by
  rcases List.mem_map.mp hx with ⟨p, hp, hpx⟩
  rcases mapInsertNat_mem k v l p hp with h | h
  · subst h
    exact Or.inl hpx.symm
  · exact Or.inr (hpx ▸ List.mem_map_of_mem Prod.fst h)

theorem mapInsertNat_sorted (k : Nat) (v : List Nat) (l : List (Nat × List Nat))
    (h : l.Sorted (fun p q => p.1 < q.1)) :
    (mapInsertNat k v l).Sorted (fun p q => p.1 < q.1) := by
  induction l with
  | nil => simp [mapInsertNat]
  | cons p rest ih =>
    rcases p with ⟨k', v'⟩
    rw [List.sorted_cons] at h
    rw [mapInsertNat]
    by_cases hlt : k < k'
    · rw [if_pos hlt, List.sorted_cons]
      refine ⟨?_, List.sorted_cons.mpr h⟩
      intro b hb
      rcases List.mem_cons.mp hb with h' | h'
      · subst h'
        exact hlt
      · exact Nat.lt_trans hlt (h.1 b h')
    · by_cases heq : k = k'
      · rw [if_neg hlt, if_pos heq, List.sorted_cons]
        exact ⟨fun b hb => heq ▸ h.1 b hb, h.2⟩
      · rw [if_neg hlt, if_neg heq, List.sorted_cons]
        refine ⟨?_, ih h.2⟩
        intro b hb
        rcases mapInsertNat_mem k v rest b hb with h' | h'
        · subst h'
          omega
        · exact h.1 b h'

theorem mapInsertNat_perm (k : Nat) (v : List Nat) (l : List (Nat × List Nat))
    (hk : k ∉ l.map Prod.fst) : (mapInsertNat k v l).Perm ((k, v) :: l) := by
  induction l with
  | nil => exact List.Perm.refl _
  | cons p rest ih =>
    rcases p with ⟨k', v'⟩
    rw [List.map_cons] at hk
    rw [mapInsertNat]
    by_cases hlt : k < k'
    · rw [if_pos hlt]
    · by_cases heq : k = k'
      · exact absurd (heq ▸ List.mem_cons_self k' (rest.map Prod.fst)) hk
      · rw [if_neg hlt, if_neg heq]
        have hk' : k ∉ rest.map Prod.fst := fun hm => hk (List.mem_cons_of_mem _ hm)
        have step := (ih hk').cons (k', v')
        exact step.trans (List.Perm.swap (k, v) (k', v') rest)

/-- Folding AddFragment's map insertions over a list of fragments. -/
def insertAllFrags (arrivals acc : List (Nat × List Nat)) : List (Nat × List Nat) :=
  arrivals.foldl (fun acc a => mapInsertNat a.1 a.2 acc) acc

theorem insertAllFrags_sorted (arrivals : List (Nat × List Nat))
    (acc : List (Nat × List Nat)) (h : acc.Sorted (fun p q => p.1 < q.1)) :
    (insertAllFrags arrivals acc).Sorted (fun p q => p.1 < q.1) := by
  induction arrivals generalizing acc with
  | nil => exact h
  | cons a arrivals ih => exact ih _ (mapInsertNat_sorted a.1 a.2 acc h)

theorem insertAllFrags_perm (arrivals : List (Nat × List Nat)) :
    ∀ acc : List (Nat × List Nat), (arrivals.map Prod.fst).Nodup →
    (∀ a ∈ arrivals, a.1 ∉ acc.map Prod.fst) →
    (insertAllFrags arrivals acc).Perm (arrivals ++ acc) := by
  induction arrivals with
  | nil => intro acc _ _; exact List.Perm.refl _
  | cons a arrivals ih =>
    intro acc hnd hdisj
    rw [List.map_cons, List.nodup_cons] at hnd
    have h1 : (mapInsertNat a.1 a.2 acc).Perm ((a.1, a.2) :: acc) :=
      mapInsertNat_perm a.1 a.2 acc (hdisj a (List.mem_cons_self a arrivals))
    have hdisj' : ∀ b ∈ arrivals, b.1 ∉ (mapInsertNat a.1 a.2 acc).map Prod.fst := by
      intro b hb hbm
      rcases mapInsertNat_keys a.1 a.2 acc b.1 hbm with h' | h'
      · exact hnd.1 (h' ▸ List.mem_map_of_mem Prod.fst hb)
      · exact hdisj b (List.mem_cons_of_mem _ hb) h'
    have step : (insertAllFrags arrivals (mapInsertNat a.1 a.2 acc)).Perm
        (arrivals ++ (a.1, a.2) :: acc) :=
      (ih _ hnd.2 hdisj').trans (List.Perm.append_left arrivals h1)
    exact step.trans List.perm_middle

/-- The state change a non-zero fragment causes. -/
def stepState (st : FragmentState) (a : Nat × List Nat) : FragmentState :=
  { st with
    fragments := mapInsertNat a.1 a.2 st.fragments
    totalSize := (st.totalSize + a.2.length) % 2 ^ 64
    receivedCount := (st.receivedCount + 1) % 2 ^ 16 }

theorem AddFragment_singleton (ident i n : Nat) (d : List Nat) (st : FragmentState)
    (hi : i ≠ 0) :
    DTXFragmentDecoder.AddFragment [(ident, st)] ident i n d =
      ([(ident, stepState st (i, d))],
       decide ((st.receivedCount + 1) % 2 ^ 16 ≥ st.expectedCount)) := by
  simp [DTXFragmentDecoder.AddFragment, pendingFind, pendingSet, hi, stepState]

theorem addFragments_singleton (ident n : Nat) (arrivals : List (Nat × List Nat)) :
    ∀ st : FragmentState, (∀ a ∈ arrivals, a.1 ≠ 0) →
    DTXFragmentDecoder.addFragments ident n arrivals [(ident, st)] =
      [(ident, arrivals.foldl stepState st)] := by
  induction arrivals with
  | nil => intro st _; rfl
  | cons a arrivals ih =>
    intro st h
    rcases a with ⟨i, d⟩
    simp only [DTXFragmentDecoder.addFragments, List.foldl_cons]
    rw [show (DTXFragmentDecoder.AddFragment [(ident, st)] ident i n d).1 =
      [(ident, stepState st (i, d))] by
        rw [AddFragment_singleton ident i n d st (h (i, d) (List.mem_cons_self _ _))]]
    exact ih (stepState st (i, d)) (fun b hb => h b (List.mem_cons_of_mem _ hb))

theorem foldl_stepState_expected (arrivals : List (Nat × List Nat)) :
    ∀ st : FragmentState,
    (arrivals.foldl stepState st).expectedCount = st.expectedCount := by
  induction arrivals with
  | nil => intro st; rfl
  | cons a arrivals ih => intro st; exact ih (stepState st a)

theorem foldl_stepState_received (arrivals : List (Nat × List Nat)) :
    ∀ st : FragmentState, st.receivedCount + arrivals.length < 2 ^ 16 →
    (arrivals.foldl stepState st).receivedCount = st.receivedCount + arrivals.length := by
  induction arrivals with
  | nil => intro st _; rfl
  | cons a arrivals ih =>
    intro st h
    rw [List.length_cons] at h
    rw [List.foldl_cons, ih (stepState st a) (by
      show (st.receivedCount + 1) % 2 ^ 16 + arrivals.length < 2 ^ 16
      rw [Nat.mod_eq_of_lt (by omega)]
      omega)]
    show (st.receivedCount + 1) % 2 ^ 16 + arrivals.length = _
    rw [Nat.mod_eq_of_lt (by omega)]
    simp only [List.length_cons]
    omega

theorem foldl_stepState_fragments (arrivals : List (Nat × List Nat)) :
    ∀ st : FragmentState,
    (arrivals.foldl stepState st).fragments = insertAllFrags arrivals st.fragments := by
  induction arrivals with
  | nil => intro st; rfl
  | cons a arrivals ih =>
    intro st
    rw [List.foldl_cons, ih (stepState st a)]
    rfl

/-- C5: when fragment 0 of an n-fragment message arrives first (reporting
count n and completing nothing), followed by fragments 1..n-1 in any
arrival order, the completion flag is returned exactly on the last
fragment, the assembled bytes are the fragment bodies concatenated in
ascending index order regardless of arrival order, and Remove erases the
identifier's state. -/
theorem C5_fragment_reassembly (n ident : Nat) (frags arrival : List (Nat × List Nat))
    (hn : 2 ≤ n) (hn16 : n < 2 ^ 16)
    (hkeys : frags.map Prod.fst = List.range' 1 (n - 1))
    (hperm : arrival.Perm frags) :
    (DTXFragmentDecoder.AddFragment [] ident 0 n []).2 = false ∧
    (∀ pre a post, arrival = pre ++ a :: post →
      ((DTXFragmentDecoder.AddFragment
          (DTXFragmentDecoder.addFragments ident n pre
            (DTXFragmentDecoder.AddFragment [] ident 0 n []).1)
          ident a.1 n a.2).2 = true ↔ post = [])) ∧
    DTXFragmentDecoder.GetAssembledData
      (DTXFragmentDecoder.addFragments ident n arrival
        (DTXFragmentDecoder.AddFragment [] ident 0 n []).1) ident =
      (frags.map Prod.snd).flatten ∧
    pendingFind ident
      (DTXFragmentDecoder.Remove
        (DTXFragmentDecoder.addFragments ident n arrival
          (DTXFragmentDecoder.AddFragment [] ident 0 n []).1) ident) = none := by
  have hp0 : (DTXFragmentDecoder.AddFragment [] ident 0 n []).1 =
      [(ident, { expectedCount := n, receivedCount := 1 })] := by
    simp [DTXFragmentDecoder.AddFragment, pendingFind, pendingSet]
  have hflag0 : (DTXFragmentDecoder.AddFragment [] ident 0 n []).2 = false := by
    simp [DTXFragmentDecoder.AddFragment, pendingFind]
    omega
  have hmapperm : (arrival.map Prod.fst).Perm (List.range' 1 (n - 1)) := by
    have h := hperm.map Prod.fst
    rwa [hkeys] at h
  have hnd : (arrival.map Prod.fst).Nodup :=
    hmapperm.nodup_iff.mpr (List.nodup_range' ..)
  have hne0 : ∀ a ∈ arrival, a.1 ≠ 0 := by
    intro a ha
    have hm : a.1 ∈ List.range' 1 (n - 1) :=
      hmapperm.mem_iff.mp (List.mem_map_of_mem Prod.fst ha)
    have := (List.mem_range'_1.mp hm).1
    omega
  have hlen : arrival.length = n - 1 := by
    have h1 := hmapperm.length_eq
    rwa [List.length_map, List.length_range'] at h1
  refine ⟨hflag0, ?_, ?_, ?_⟩
  · intro pre a post heq
    have hpre0 : ∀ b ∈ pre, b.1 ≠ 0 := fun b hb => hne0 b (heq ▸ List.mem_append_left _ hb)
    have ha0 : a.1 ≠ 0 :=
      hne0 a (heq ▸ List.mem_append_right _ (List.mem_cons_self _ _))
    have hplen : pre.length + 1 + post.length = n - 1 := by
      have h2 := congrArg List.length heq
      rw [hlen, List.length_append, List.length_cons] at h2
      omega
    rw [hp0, addFragments_singleton ident n pre _ hpre0,
      AddFragment_singleton ident a.1 n a.2 _ ha0]
    rw [foldl_stepState_received pre _ (by
      show 1 + pre.length < 2 ^ 16
      omega), foldl_stepState_expected]
    show decide ((1 + pre.length + 1) % 2 ^ 16 ≥ n) = true ↔ post = []
    rw [Nat.mod_eq_of_lt (by omega), decide_eq_true_eq]
    constructor
    · intro h
      exact List.length_eq_zero.mp (by omega)
    · intro h
      subst h
      rw [List.length_nil] at hplen
      omega
  · rw [hp0, addFragments_singleton ident n arrival _ hne0]
    have hfrag : (arrival.foldl stepState
        { expectedCount := n, receivedCount := 1 } : FragmentState).fragments = frags := by
      rw [foldl_stepState_fragments]
      show insertAllFrags arrival [] = frags
      have hpA : (insertAllFrags arrival []).Perm frags := by
        have hp := insertAllFrags_perm arrival [] hnd (by
          intro b _
          simp)
        rw [List.append_nil] at hp
        exact hp.trans hperm
      have hs1 : (insertAllFrags arrival []).Sorted (fun p q => p.1 < q.1) :=
        insertAllFrags_sorted arrival [] (by simp)
      have hs2 : frags.Sorted (fun p q => p.1 < q.1) := by
        have hps : List.Pairwise (· < ·) (frags.map Prod.fst) := by
          rw [hkeys]
          exact List.pairwise_lt_range' ..
        exact List.pairwise_map.mp hps
      exact @List.eq_of_perm_of_sorted (Nat × List Nat) (fun p q => p.1 < q.1)
        ⟨fun a b h1 h2 => absurd h2 (Nat.lt_asymm h1)⟩ _ _ hpA hs1 hs2
    simp [DTXFragmentDecoder.GetAssembledData, pendingFind, hfrag]
  · rw [hp0, addFragments_singleton ident n arrival _ hne0]
    simp [DTXFragmentDecoder.Remove, pendingErase, pendingFind]

/-- Witness for C5 at a concrete input: a 3-fragment message whose
fragments 1 and 2 arrive out of order still assembles to the in-order
concatenation of their bodies. -/
theorem C5_fragment_reassembly_witness :
    DTXFragmentDecoder.GetAssembledData
      (DTXFragmentDecoder.addFragments 9 3 [(2, [12]), (1, [10, 11])]
        (DTXFragmentDecoder.AddFragment [] 9 0 3 []).1) 9 = [10, 11, 12] := by
  have h := C5_fragment_reassembly 3 9 [(1, [10, 11]), (2, [12])]
    [(2, [12]), (1, [10, 11])] (by decide) (by decide) (by decide) (by decide)
  exact h.2.2.1.trans (by decide)

/-!
Transport receive path (src/src/dtx/dtx_transport.cpp) and the retry /
close decision of DTXConnection::ReceiveLoop
(src/src/dtx/dtx_connection.cpp).  The byte source is modelled as a list
the transport consumes; a read past its end would block on timeouts in
the C++ code, so the model leaves the state unchanged and returns
nothing, and the theorems only exercise streams long enough.  The error
codes are the libimobiledevice constants the sources compare against.
-/

def IDEVICE_E_SUCCESS : Int := 0

def IDEVICE_E_SSL_ERROR : Int := -6

/-- The transport state DTXConnection::ReceiveLoop inspects: the
connected flag and the last-read diagnostics written by ReadExact,
plus the modelled byte source. -/
structure TransportState where
  connected : Bool := true
  lastReadTimeout : Bool := false
  lastReadError : Int := 0
  lastReadBytes : Nat := 0
  stream : List Nat := []
deriving DecidableEq

/-- DTXTransport::ReadExact on the modelled byte source: a full read
succeeds and leaves the diagnostics in their success state (timeout
false, error IDEVICE_E_SUCCESS, zero bytes), exactly as the C++ code
resets them on its success path. -/
def DTXTransport.ReadExact (st : TransportState) (len : Nat) :
    Option (List Nat) × TransportState :=
  if ¬ st.connected then (none, st)
  else if len ≤ st.stream.length then
    (some (st.stream.take len),
     { st with stream := st.stream.drop len,
               lastReadTimeout := false, lastReadError := IDEVICE_E_SUCCESS,
               lastReadBytes := 0 })
  else (none, st)

/-- The isMagic lambda in DTXTransport::Receive: the four bytes are the
magic in big- or little-endian order. -/
def isMagic (p : List Nat) : Bool :=
  decide ((p.getD 0 0 = 0x79 ∧ p.getD 1 0 = 0x5B ∧ p.getD 2 0 = 0x3D ∧ p.getD 3 0 = 0x1F) ∨
          (p.getD 0 0 = 0x1F ∧ p.getD 1 0 = 0x3D ∧ p.getD 2 0 = 0x5B ∧ p.getD 3 0 = 0x79))

/-- The resync loop of DTXTransport::Receive: shift the 32-byte header
window left by one byte, read one more byte, and stop when the window
starts with the magic; the fuel is the 1 MiB scan budget, and running
out of it gives up. -/
def resync : Nat → List Nat → TransportState → Option (List Nat) × TransportState
  | 0, _, st => (none, st)
  | fuel + 1, buf, st =>
    match DTXTransport.ReadExact st 1 with
    | (none, st') => (none, st')
    | (some b, st') =>
      let buf' := buf.drop 1 ++ b
      if isMagic buf' then (some buf', st') else resync fuel buf' st'

/-- The tail of DTXTransport::Receive once a magic-bearing header window
is in hand: parse it, return it alone for a header-only first fragment
or a zero-length body, else read and append the body. -/
def DTXTransport.receiveRest (hdr : List Nat) (st : TransportState) :
    List Nat × TransportState :=
  (DTXMessage.parseHeader hdr).elim ([], st) (fun header =>
    if header.fragmentCount > 1 ∧ header.fragmentIndex = 0 then (hdr, st)
    else if header.messageLength > 0 then
      (DTXTransport.ReadExact st header.messageLength).1.elim
        ([], (DTXTransport.ReadExact st header.messageLength).2)
        (fun body => (hdr ++ body, (DTXTransport.ReadExact st header.messageLength).2))
    else (hdr, st))

/-- DTXTransport::Receive: read the 32-byte header, resync through at
most 1 MiB when it does not start with magic, then read the body. -/
def DTXTransport.Receive (st : TransportState) : List Nat × TransportState :=
  match DTXTransport.ReadExact st 32 with
  | (none, st') => ([], st')
  | (some hdr, st') =>
    if isMagic hdr then DTXTransport.receiveRest hdr st'
    else
      match resync (1024 * 1024) hdr st' with
      | (none, st'') => ([], st'')
      | (some hdr', st'') => DTXTransport.receiveRest hdr' st''

/-- What DTXConnection::ReceiveLoop does with one Receive result. -/
inductive LoopAction
  | processMessage
  | retryWait
  | closeConnection
deriving DecidableEq

/-- The empty-read decision of DTXConnection::ReceiveLoop: a timeout, an
SSL read with no bytes, or a successful read with no bytes means "no
data yet" and the loop sleeps and retries; any other empty read marks
the connection closed and ends the loop; non-empty data is processed. -/
def DTXConnection.receiveLoopAction (raw : List Nat) (st : TransportState) : LoopAction :=
  if raw.length = 0 then
    if st.lastReadTimeout ∨
       (st.lastReadError = IDEVICE_E_SSL_ERROR ∧ st.lastReadBytes = 0) ∨
       (st.lastReadError = IDEVICE_E_SUCCESS ∧ st.lastReadBytes = 0) then
      LoopAction.retryWait
    else LoopAction.closeConnection
  else LoopAction.processMessage

theorem getD_take_lt (l : List Nat) (n i : Nat) (h : i < n) :
    (l.take n).getD i 0 = l.getD i 0 := by
  simp only [List.getD, List.get?_eq_getElem?, List.getElem?_take_of_lt h]

theorem isMagic_take (l : List Nat) (n : Nat) (h : 4 ≤ n) :
    isMagic (l.take n) = isMagic l := by
  rw [isMagic, isMagic,
    getD_take_lt l n 0 (by omega), getD_take_lt l n 1 (by omega),
    getD_take_lt l n 2 (by omega), getD_take_lt l n 3 (by omega)]

theorem isMagic_head_zero (l : List Nat) (h : l.getD 0 0 = 0) : isMagic l = false := by
  simp only [List.getD, List.get?_eq_getElem?] at h
  simp [isMagic, List.getD, List.get?_eq_getElem?, h]

theorem resync_zeros (f : Nat) : ∀ m : Nat, f ≤ m →
    resync f (List.replicate 32 0)
      { connected := true, lastReadTimeout := false, lastReadError := 0,
        lastReadBytes := 0, stream := List.replicate m 0 } =
      (none,
       { connected := true, lastReadTimeout := false, lastReadError := 0,
         lastReadBytes := 0, stream := List.replicate (m - f) 0 }) := by
  induction f with
  | zero =>
    intro m _
    rw [resync, Nat.sub_zero]
  | succ f ih =>
    intro m hm
    have hread : DTXTransport.ReadExact
        { connected := true, lastReadTimeout := false, lastReadError := 0,
          lastReadBytes := 0, stream := List.replicate m 0 } 1 =
        (some (List.replicate 1 0),
         { connected := true, lastReadTimeout := false, lastReadError := 0,
           lastReadBytes := 0, stream := List.replicate (m - 1) 0 }) := by
      rw [DTXTransport.ReadExact]
      rw [if_neg (by simp), if_pos (by rw [List.length_replicate]; omega)]
      rw [List.take_replicate, List.drop_replicate, Nat.min_eq_left (by omega)]
      rw [show IDEVICE_E_SUCCESS = 0 from rfl]
    simp only [resync, hread]
    rw [show (List.replicate 32 (0 : Nat)).drop 1 ++ List.replicate 1 0 =
        List.replicate 32 0 from by
      rw [List.drop_replicate, ← List.replicate_add]]
    rw [if_neg (by decide)]
    rw [ih (m - 1) (by omega)]
    rw [show m - 1 - f = m - (f + 1) from by omega]

theorem receive_zeros (m : Nat) (hm : 32 + 1024 * 1024 ≤ m) :
    DTXTransport.Receive { stream := List.replicate m 0 } =
      ([], { connected := true, lastReadTimeout := false, lastReadError := 0,
             lastReadBytes := 0, stream := List.replicate (m - 32 - 1024 * 1024) 0 }) := by
  have hread32 : DTXTransport.ReadExact { stream := List.replicate m 0 } 32 =
      (some (List.replicate 32 0),
       { connected := true, lastReadTimeout := false, lastReadError := 0,
         lastReadBytes := 0, stream := List.replicate (m - 32) 0 }) := by
    rw [DTXTransport.ReadExact]
    rw [if_neg (by simp), if_pos (by rw [List.length_replicate]; omega)]
    rw [List.take_replicate, List.drop_replicate, Nat.min_eq_left (by omega)]
    rw [show IDEVICE_E_SUCCESS = 0 from rfl]
  have hm32 : isMagic (List.replicate 32 0) = false := by decide
  have hres := resync_zeros (1024 * 1024) (m - 32) (by omega)
  simp only [DTXTransport.Receive, hread32, hm32, Bool.false_eq_true, if_false, hres]

theorem getD_append_left (a b : List Nat) (i : Nat) (h : i < a.length) :
    (a ++ b).getD i 0 = a.getD i 0 := by
  simp only [List.getD, List.get?_eq_getElem?, List.getElem?_append_left h]

theorem resync_finds (tail : List Nat) (htail : 32 ≤ tail.length)
    (hmg : isMagic tail = true) :
    ∀ (z f : Nat) (buf s : List Nat), buf.length = 32 → z < f →
    buf ++ s = List.replicate (z + 1) 0 ++ tail →
    resync f buf
      { connected := true, lastReadTimeout := false, lastReadError := 0,
        lastReadBytes := 0, stream := s } =
      (some (tail.take 32),
       { connected := true, lastReadTimeout := false, lastReadError := 0,
         lastReadBytes := 0, stream := tail.drop 32 }) := by
  intro z
  induction z with
  | zero =>
    intro f buf s hlen hzf hv
    obtain ⟨f', rfl⟩ : ∃ f', f = f' + 1 := ⟨f - 1, by omega⟩
    have hs : 1 ≤ s.length := by
      have h1 := congrArg List.length hv
      rw [List.length_append, List.length_append, List.length_replicate, hlen] at h1
      omega
    have hread : DTXTransport.ReadExact
        { connected := true, lastReadTimeout := false, lastReadError := 0,
          lastReadBytes := 0, stream := s } 1 =
        (some (s.take 1),
         { connected := true, lastReadTimeout := false, lastReadError := 0,
           lastReadBytes := 0, stream := s.drop 1 }) := by
      rw [DTXTransport.ReadExact]
      rw [if_neg (by simp), if_pos (by show (1 : Nat) ≤ s.length; omega)]
      rw [show IDEVICE_E_SUCCESS = 0 from rfl]
    have hlen32 : (buf.drop 1 ++ s.take 1).length = 32 := by
      rw [List.length_append, List.length_drop, List.length_take, hlen]
      omega
    have hbuf' : buf.drop 1 ++ s.take 1 ++ s.drop 1 = tail := by
      rw [List.append_assoc, List.take_append_drop,
        ← List.drop_append_of_le_length (by omega), hv]
      rfl
    have hbuf'' : buf.drop 1 ++ s.take 1 = tail.take 32 := by
      have h2 := congrArg (List.take 32) hbuf'
      rwa [List.take_append_eq_append_take,
        List.take_of_length_le (le_of_eq hlen32),
        show 32 - (buf.drop 1 ++ s.take 1).length = 0 from by rw [hlen32],
        List.take_zero, List.append_nil] at h2
    have hs' : tail.drop 32 = s.drop 1 := by
      rw [← hbuf']
      exact List.drop_left' hlen32
    simp only [resync, hread]
    rw [hbuf'']
    rw [if_pos (by rw [isMagic_take tail 32 (by omega), hmg])]
    rw [hs']
  | succ z ih =>
    intro f buf s hlen hzf hv
    obtain ⟨f', rfl⟩ : ∃ f', f = f' + 1 := ⟨f - 1, by omega⟩
    have hs : 1 ≤ s.length := by
      have h1 := congrArg List.length hv
      rw [List.length_append, List.length_append, List.length_replicate, hlen] at h1
      omega
    have hread : DTXTransport.ReadExact
        { connected := true, lastReadTimeout := false, lastReadError := 0,
          lastReadBytes := 0, stream := s } 1 =
        (some (s.take 1),
         { connected := true, lastReadTimeout := false, lastReadError := 0,
           lastReadBytes := 0, stream := s.drop 1 }) := by
      rw [DTXTransport.ReadExact]
      rw [if_neg (by simp), if_pos (by show (1 : Nat) ≤ s.length; omega)]
      rw [show IDEVICE_E_SUCCESS = 0 from rfl]
    have hlen' : (buf.drop 1 ++ s.take 1).length = 32 := by
      rw [List.length_append, List.length_drop, List.length_take, hlen]
      omega
    have hv' : (buf.drop 1 ++ s.take 1) ++ s.drop 1 = List.replicate (z + 1) 0 ++ tail := by
      rw [List.append_assoc, List.take_append_drop,
        ← List.drop_append_of_le_length (by omega), hv, List.replicate_succ]
      rfl
    have hhead : (buf.drop 1 ++ s.take 1).getD 0 0 = 0 := by
      have h2 : ((buf.drop 1 ++ s.take 1) ++ s.drop 1).getD 0 0 = 0 := by
        rw [hv', List.replicate_succ, List.cons_append, List.getD_cons_zero]
      rwa [getD_append_left _ _ 0 (by rw [hlen']; omega)] at h2
    simp only [resync, hread]
    rw [if_neg (by
      rw [isMagic_head_zero _ hhead]
      exact Bool.false_ne_true)]
    exact ih f' (buf.drop 1 ++ s.take 1) (s.drop 1) hlen' (by omega) hv'

theorem isMagic_encode (m : DTXMsg) : isMagic (DTXMessage.encode m) = true := by
  rw [show DTXMessage.encode m =
    0x79 :: (0x5B :: (0x3D :: (0x1F ::
      (writeLE32 DTXProtocol.HeaderLength ++ (writeLE16 0 ++ (writeLE16 1 ++
        (writeLE32 (DTXMessage.payloadSection m).length ++
          (writeLE32 m.header.identifier ++ (writeLE32 m.header.conversationIndex ++
            (writeLE32 m.header.channelCode ++ (writeLE32 m.header.expectsReply ++
              DTXMessage.payloadSection m))))))))))) from rfl]
  rw [isMagic]
  simp only [List.getD_cons_zero, List.getD_cons_succ]
  decide

theorem receive_after_garbage (m : DTXMsg) (hp : m.payload = []) (ha : m.auxiliary = [])
    (ht : m.payloadHeader.messageType ≠ 0) (k : Nat) (hk32 : 32 ≤ k)
    (hk : k ≤ 1024 * 1024) :
    DTXTransport.Receive { stream := List.replicate k 0 ++ DTXMessage.encode m } =
      (DTXMessage.encode m,
       { connected := true, lastReadTimeout := false, lastReadError := 0,
         lastReadBytes := 0, stream := [] }) := by
  have hps : DTXMessage.payloadSection m = [] := by
    rw [DTXMessage.payloadSection]
    simp [hp, ha, ht]
  have hflen : (DTXMessage.encode m).length = 32 := by
    rw [encode_length, hps]
    rfl
  have hread32 : DTXTransport.ReadExact
      { stream := List.replicate k 0 ++ DTXMessage.encode m } 32 =
      (some (List.replicate 32 0),
       { connected := true, lastReadTimeout := false, lastReadError := 0,
         lastReadBytes := 0,
         stream := List.replicate (k - 32) 0 ++ DTXMessage.encode m }) := by
    rw [DTXTransport.ReadExact]
    rw [if_neg (by simp), if_pos (by rw [List.length_append, List.length_replicate]; omega)]
    rw [List.take_append_eq_append_take, List.take_replicate,
      Nat.min_eq_left hk32, List.length_replicate,
      show (32 : Nat) - k = 0 from by omega, List.take_zero, List.append_nil]
    rw [List.drop_append_of_le_length (by rw [List.length_replicate]; omega),
      List.drop_replicate]
    rw [show IDEVICE_E_SUCCESS = 0 from rfl]
  have hzeros : isMagic (List.replicate 32 0) = false := by decide
  have hres := resync_finds (DTXMessage.encode m) (by omega) (isMagic_encode m)
    (k - 1) (1024 * 1024) (List.replicate 32 0)
    (List.replicate (k - 32) 0 ++ DTXMessage.encode m)
    (List.length_replicate ..) (by omega)
    (by rw [← List.append_assoc, ← List.replicate_add,
          show 32 + (k - 32) = k - 1 + 1 from by omega])
  simp only [DTXTransport.Receive, hread32, hzeros, Bool.false_eq_true, if_false, hres]
  rw [show (DTXMessage.encode m).take 32 = DTXMessage.encode m from
    List.take_of_length_le (by omega)]
  rw [show (DTXMessage.encode m).drop 32 = ([] : List Nat) from
    List.drop_eq_nil_of_le (by omega)]
  simp only [DTXTransport.receiveRest, parseHeader_encode, Option.elim_some, hps,
    List.length_nil, Nat.zero_mod]
  rw [if_neg (by norm_num), if_neg (by norm_num)]

/-- C8 counterexample: after the 1 MiB resync scan is exhausted on a
magic-free stream, the receive loop does not transition to Closed — the
transport's diagnostics report a successful zero-byte read, so the loop
classifies the empty result as "no data yet". -/
theorem C8_resync_close_cex :
    DTXConnection.receiveLoopAction
      (DTXTransport.Receive { stream := List.replicate (32 + 1024 * 1024) 0 }).1
      (DTXTransport.Receive { stream := List.replicate (32 + 1024 * 1024) 0 }).2 ≠
      LoopAction.closeConnection := by
  rw [receive_zeros (32 + 1024 * 1024) (by omega)]
  simp [DTXConnection.receiveLoopAction, IDEVICE_E_SUCCESS]

/-- C8 (amended): a frame whose magic begins within the 1 MiB budget is
found by the byte-by-byte slide and returned; when 1 MiB of magic-free
bytes is scanned, Receive returns empty while the connection stays up
and the last-read diagnostics report a successful zero-byte read, so
DTXConnection::ReceiveLoop sleeps and retries instead of closing the
connection. -/
theorem C8_resync_exhaustion_retries (mm : DTXMsg) (hp : mm.payload = [])
    (ha : mm.auxiliary = []) (ht : mm.payloadHeader.messageType ≠ 0)
    (k mlen : Nat) (hk32 : 32 ≤ k) (hk : k ≤ 1024 * 1024)
    (hm : 32 + 1024 * 1024 ≤ mlen) :
    (DTXTransport.Receive { stream := List.replicate k 0 ++ DTXMessage.encode mm }).1 =
      DTXMessage.encode mm ∧
    (DTXTransport.Receive { stream := List.replicate mlen 0 }).1 = [] ∧
    (DTXTransport.Receive { stream := List.replicate mlen 0 }).2.connected = true ∧
    (DTXTransport.Receive { stream := List.replicate mlen 0 }).2.lastReadTimeout = false ∧
    (DTXTransport.Receive { stream := List.replicate mlen 0 }).2.lastReadError =
      IDEVICE_E_SUCCESS ∧
    (DTXTransport.Receive { stream := List.replicate mlen 0 }).2.lastReadBytes = 0 ∧
    DTXConnection.receiveLoopAction
      (DTXTransport.Receive { stream := List.replicate mlen 0 }).1
      (DTXTransport.Receive { stream := List.replicate mlen 0 }).2 =
      LoopAction.retryWait := by
  rw [receive_after_garbage mm hp ha ht k hk32 hk, receive_zeros mlen hm]
  refine ⟨rfl, rfl, rfl, rfl, rfl, rfl, ?_⟩
  simp [DTXConnection.receiveLoopAction, IDEVICE_E_SUCCESS]

/-- Witness for C8 at concrete inputs: a frame after 32 bytes of garbage
is recovered, and a 1 MiB magic-free stream leads to a retry. -/
theorem C8_resync_exhaustion_retries_witness :
    (DTXTransport.Receive { stream := List.replicate 32 0 ++ DTXMessage.encode { payloadHeader := { messageType := 2 } } }).1 = DTXMessage.encode { payloadHeader := { messageType := 2 } } ∧
    DTXConnection.receiveLoopAction
      (DTXTransport.Receive { stream := List.replicate (33 + 1024 * 1024) 0 }).1
      (DTXTransport.Receive { stream := List.replicate (33 + 1024 * 1024) 0 }).2 =
      LoopAction.retryWait := by
  have h := C8_resync_exhaustion_retries { payloadHeader := { messageType := 2 } }
    rfl rfl (by decide) 32 (33 + 1024 * 1024) (by norm_num) (by norm_num) (by norm_num)
  exact ⟨h.1, h.2.2.2.2.2.2⟩
